import Mathlib

/-!
Verification of the Glisk backend pipeline (Python sources under
`backend/src/glisk/`) against its natural-language specification.
Each Python function relevant to the claims is shallowly embedded as an
executable Lean definition; theorems about those definitions settle the
claims.  Machine integers are modelled as `Nat` with explicit modular
reduction where overflow matters; fallible Python code returns `Except`.
-/

set_option maxRecDepth 10000

namespace Glisk

/-! ## Token data model (`models/token.py`) -/

/-- `TokenStatus` enum from `models/token.py`. -/
inductive TokenStatus
  | detected
  | generating
  | uploading
  | ready
  | revealed
  | failed
  deriving DecidableEq, Repr

/-- Errors raised by the Python model/helper code that we track. -/
inductive PyError
  | invalidStateTransition
  | valueError
  | typeError
  | integrityError
  deriving DecidableEq, Repr

/-- The `Token` row (`tokens_s0`), with the fields the claims mention.
`created_at` is an abstract timestamp used only for FIFO ordering. -/
structure Token where
  id : Nat := 0
  token_id : Nat
  author_id : Nat
  status : TokenStatus
  image_url : Option String := none
  image_cid : Option String := none
  metadata_cid : Option String := none
  reveal_tx_hash : Option String := none
  generation_attempts : Nat := 0
  generation_error : Option String := none
  created_at : Nat := 0
  deriving DecidableEq, Repr

/-- `Token.mark_generating`: detected → generating, otherwise
`InvalidStateTransition`. -/
def Token.mark_generating (t : Token) : Except PyError Token :=
  if t.status ≠ TokenStatus.detected then Except.error PyError.invalidStateTransition
  else Except.ok { t with status := TokenStatus.generating }

/-- `Token.mark_uploading`: generating → uploading, otherwise
`InvalidStateTransition` (the `image_path` argument is stored elsewhere). -/
def Token.mark_uploading (t : Token) : Except PyError Token :=
  if t.status ≠ TokenStatus.generating then Except.error PyError.invalidStateTransition
  else Except.ok { t with status := TokenStatus.uploading }

/-- `Token.mark_ready`: uploading → ready, sets `metadata_cid`; raises
`InvalidStateTransition` from any other state and `ValueError` on an empty cid. -/
def Token.mark_ready (t : Token) (metadata_cid : String) : Except PyError Token :=
  if t.status ≠ TokenStatus.uploading then Except.error PyError.invalidStateTransition
  else if metadata_cid = "" then Except.error PyError.valueError
  else Except.ok { t with metadata_cid := some metadata_cid, status := TokenStatus.ready }

/-- `Token.mark_revealed`: ready → revealed; raises `InvalidStateTransition`
from any other state and `ValueError` on an empty tx hash. -/
def Token.mark_revealed (t : Token) (tx_hash : String) : Except PyError Token :=
  if t.status ≠ TokenStatus.ready then Except.error PyError.invalidStateTransition
  else if tx_hash = "" then Except.error PyError.valueError
  else Except.ok { t with status := TokenStatus.revealed }

/-- `Token.mark_failed`: any non-terminal state → failed; raises
`InvalidStateTransition` from the terminal states revealed/failed. -/
def Token.mark_failed (t : Token) : Except PyError Token :=
  if t.status = TokenStatus.revealed ∨ t.status = TokenStatus.failed then
    Except.error PyError.invalidStateTransition
  else Except.ok { t with status := TokenStatus.failed }

/-! ## TokenRepository state-mutating methods (`repositories/token.py`).
These set `status` unconditionally (no guard, no exception). -/

/-- Python `error_message[:1000]`: truncate a string to 1000 characters. -/
def pyTruncate1000 (s : String) : String := String.mk (s.data.take 1000)

/-- Python `s.startswith(p)` (kernel-friendly, over the char list). -/
def strHasPrefix (s p : String) : Bool := s.data.take p.data.length == p.data

/-- Python `s[n:]` for non-negative `n`. -/
def strDrop (s : String) (n : Nat) : String := String.mk (s.data.drop n)

/-- Python `s.lower()`. -/
def strToLower (s : String) : String := String.mk (s.data.map Char.toLower)

/-- `TokenRepository.mark_failed`: set status failed, truncate the error. -/
def repoMarkFailed (t : Token) (error_message : String) : Token :=
  { t with status := TokenStatus.failed,
           generation_error := some (pyTruncate1000 error_message) }

/-- `TokenRepository.increment_attempts`: bump the counter, reset the status
to detected for retry, truncate the error. -/
def repoIncrementAttempts (t : Token) (error_message : String) : Token :=
  { t with generation_attempts := t.generation_attempts + 1,
           status := TokenStatus.detected,
           generation_error := some (pyTruncate1000 error_message) }

/-- `TokenRepository.update_image_url`: raise `ValueError` on an empty URL,
else store it and set status uploading. -/
def repoUpdateImageUrl (t : Token) (image_url : String) : Except PyError Token :=
  if image_url = "" then Except.error PyError.valueError
  else Except.ok { t with image_url := some image_url, status := TokenStatus.uploading }

/-- `TokenRepository.update_ipfs_cids`: raise `ValueError` if either cid is
empty, else store both and set status ready. -/
def repoUpdateIpfsCids (t : Token) (image_cid metadata_cid : String) :
    Except PyError Token :=
  if image_cid = "" ∨ metadata_cid = "" then Except.error PyError.valueError
  else Except.ok { t with image_cid := some image_cid,
                          metadata_cid := some metadata_cid,
                          status := TokenStatus.ready }

/-- `TokenRepository.mark_revealed`: optionally store the tx hash (Python
truthiness: only a non-empty string is stored), set status revealed. -/
def repoMarkRevealed (t : Token) (tx_hash : Option String) : Token :=
  let t := match tx_hash with
    | some h => if h ≠ "" then { t with reveal_tx_hash := some h } else t
    | none => t
  { t with status := TokenStatus.revealed }

/-- The one-shot startup orphan reset of the image-generation worker
(`image_generation_worker.recover_orphaned_tokens`):
`UPDATE tokens_s0 SET status = detected WHERE status = generating`. -/
def orphanReset (t : Token) : Token :=
  if t.status = TokenStatus.generating then { t with status := TokenStatus.detected } else t

/-! ## Allowed edges of the state machine (spec §4.1). -/

/-- Forward edges of the machine in spec §4.1: the happy path plus
`failed` reachable from any non-terminal state.  (Does not include the
`generating → detected` back-edge.) -/
def forwardEdge : TokenStatus → TokenStatus → Bool
  | TokenStatus.detected, TokenStatus.generating => true
  | TokenStatus.generating, TokenStatus.uploading => true
  | TokenStatus.uploading, TokenStatus.ready => true
  | TokenStatus.ready, TokenStatus.revealed => true
  | TokenStatus.detected, TokenStatus.failed => true
  | TokenStatus.generating, TokenStatus.failed => true
  | TokenStatus.uploading, TokenStatus.failed => true
  | TokenStatus.ready, TokenStatus.failed => true
  | _, _ => false

/-- Edges of the state machine as the code actually realises them: the
forward edges plus the `generating → detected` back-edge (taken both by
the startup orphan reset and by the image worker's transient-error retry). -/
def realizedEdge (a b : TokenStatus) : Bool :=
  forwardEdge a b || (a = TokenStatus.generating && b = TokenStatus.detected)

/-- A permitted status evolution of one database write: either the status
is unchanged or it moves along a realized edge. -/
def allowedStep (a b : TokenStatus) : Bool := (a == b) || realizedEdge a b

/-! ## Image-generation worker (`workers/image_generation_worker.py`).
`process_single_token` is modelled as a function from the claimed token and
an outcome of the external calls to the list of token states committed to
the database, in order.  The claimed token has status `detected`
(`get_pending_for_generation` selects only detected rows). -/

/-- Outcome of the fallback-prompt image call in the content-policy branch. -/
inductive FallbackOutcome
  | ok (image_url : String)
  | fail (msg : String)
  deriving DecidableEq, Repr

/-- Outcome of prompt resolution + external image generation for one token. -/
inductive GenOutcome
  | success (image_url : String)
  | transient (msg : String)
  | contentPolicy (msg : String) (fallback : FallbackOutcome)
  | permanent (msg : String)
  | promptInvalid (msg : String)
  deriving DecidableEq, Repr

/-- The sequence of token states committed by
`image_generation_worker.process_single_token` on a token claimed in state
`detected`, for a given outcome of the external calls.  The first commit is
always the `mark_generating` lease; the second is the branch-dependent exit. -/
def imageWorkerCommits (t : Token) (o : GenOutcome) : List Token :=
  let g : Token := { t with status := TokenStatus.generating }
  match o with
  | GenOutcome.success url =>
      match repoUpdateImageUrl g url with
      | Except.ok u => [g, u]
      | Except.error _ =>
          [g, repoMarkFailed g ("Prompt validation failed: image_url cannot be empty")]
  | GenOutcome.transient msg => [g, repoIncrementAttempts g msg]
  | GenOutcome.contentPolicy _msg fb =>
      match fb with
      | FallbackOutcome.ok url =>
          match repoUpdateImageUrl g url with
          | Except.ok u => [g, { u with generation_attempts := u.generation_attempts + 1 }]
          | Except.error _ =>
              [g, repoMarkFailed g ("Fallback prompt failed: image_url cannot be empty")]
      | FallbackOutcome.fail fmsg =>
          [g, repoMarkFailed g ("Fallback prompt failed: " ++ fmsg)]
  | GenOutcome.permanent msg => [g, repoMarkFailed g msg]
  | GenOutcome.promptInvalid msg =>
      [g, repoMarkFailed g ("Prompt validation failed: " ++ msg)]

/-! ## Content-upload worker (`workers/ipfs_upload_worker.py`).
`process_single_token` commits exactly one final token state per run
(audit rows aside); the claimed token has status `uploading`. -/

/-- Outcome of the download/pin/pin sequence for one token. -/
inductive UploadOutcome
  | success (image_cid metadata_cid : String)
  | transient (msg : String)
  | permanent (msg : String)
  | missingData (msg : String)
  deriving DecidableEq, Repr

/-- The token state committed by `ipfs_upload_worker.process_single_token`
on a token claimed in state `uploading`.  On success the token advances to
`ready` with both cids; on every error class the status is left `uploading`
with the attempt counter bumped and the error truncated to 1000 chars. -/
def uploadWorkerCommit (t : Token) (o : UploadOutcome) : Token :=
  match o with
  | UploadOutcome.success ic mc =>
      match repoUpdateIpfsCids t ic mc with
      | Except.ok u => u
      | Except.error _ =>
          { t with generation_attempts := t.generation_attempts + 1,
                   generation_error :=
                     some (pyTruncate1000
                       ("IPFS upload failed: Both image_cid and metadata_cid are required")) }
  | UploadOutcome.transient msg =>
      { t with generation_attempts := t.generation_attempts + 1,
               generation_error := some (pyTruncate1000 msg) }
  | UploadOutcome.permanent msg =>
      { t with generation_attempts := t.generation_attempts + 1,
               generation_error := some (pyTruncate1000 ("IPFS upload failed: " ++ msg)) }
  | UploadOutcome.missingData msg =>
      { t with generation_attempts := t.generation_attempts + 1,
               generation_error := some (pyTruncate1000 ("IPFS upload failed: " ++ msg)) }

/-! ## Reveal worker (`workers/reveal_worker.py`) and
`RevealTransaction` (`models/reveal_tx.py`). -/

/-- `RevealTransaction` row: `token_ids` holds the internal `Token.id`
references of the batch. -/
structure RevealTransaction where
  token_ids : List Nat
  tx_hash : Option String := none
  block_number : Option Nat := none
  status : String
  deriving DecidableEq, Repr

/-- `RevealTransaction.validate_token_ids`: the array must have 1..50
elements. -/
def validate_token_ids (v : List Nat) : Except String (List Nat) :=
  if v = [] ∨ v.length < 1 then
    Except.error ("token_ids must contain at least 1 token")
  else if v.length > 50 then
    Except.error ("token_ids cannot exceed 50 tokens per batch")
  else Except.ok v

/-- Ordered insertion by `created_at` (ascending, stable). -/
def insertByCreatedAt (t : Token) : List Token → List Token
  | [] => [t]
  | u :: rest =>
      if t.created_at ≤ u.created_at then t :: u :: rest
      else u :: insertByCreatedAt t rest

/-- `ORDER BY created_at ASC`. -/
def sortByCreatedAt (l : List Token) : List Token :=
  l.foldr insertByCreatedAt []

/-- `TokenRepository.get_ready_for_reveal`: tokens in state `ready`,
ordered ascending by `created_at`, capped at `limit` (rows already locked
by another transaction are absent from `store` in this per-claim model). -/
def getReadyForReveal (store : List Token) (limit : Nat) : List Token :=
  (sortByCreatedAt (store.filter (fun t => t.status = TokenStatus.ready))).take limit

/-- `reveal_worker.get_batch`: two-phase accumulation.  First lease up to
`batch_max_size` ready tokens from the store as seen at the first poll
(`store1`); if some but fewer than the maximum were found, after the wait
lease up to the remaining count from the store as seen at the second poll
(`store2`) and append those whose `token_id` is not already in the batch. -/
def getBatch (store1 store2 : List Token) (batch_max_size : Nat) : List Token :=
  let tokens := getReadyForReveal store1 batch_max_size
  if tokens = [] then []
  else if tokens.length < batch_max_size then
    let remaining_slots := batch_max_size - tokens.length
    let additional := getReadyForReveal store2 remaining_slots
    let existing_ids := tokens.map (fun t => t.token_id)
    tokens ++ additional.filter (fun t => t.token_id ∉ existing_ids)
  else tokens

/-- `process_reveal_batch`: the on-chain token-id array. -/
def revealTokenIdArray (tokens : List Token) : List Nat :=
  tokens.map (fun t => t.token_id)

/-- `process_reveal_batch`: the metadata-URI array submitted alongside the
ids (`f"ipfs://..."` over the same list; a missing cid renders as the
Python string `None`). -/
def revealMetadataUris (tokens : List Token) : List String :=
  tokens.map (fun t =>
    match t.metadata_cid with
    | some c => "ipfs://" ++ c
    | none => "ipfs://None")

/-- `process_reveal_batch` after a confirmed receipt: the audit
`RevealTransaction` row (status `confirmed`, `token_ids` = internal ids)
and the batch tokens each advanced with `repoMarkRevealed`. -/
def processRevealBatchCommit (tokens : List Token) (tx_hash : String)
    (block_number : Nat) : Option (RevealTransaction × List Token) :=
  if tokens = [] then none
  else
    some ({ token_ids := tokens.map (fun t => t.id),
            tx_hash := some tx_hash,
            block_number := some block_number,
            status := "confirmed" },
          tokens.map (fun t => repoMarkRevealed t (some tx_hash)))

/-! ## Keeper construction bug (`reveal_worker.run_reveal_worker` vs
`services/blockchain/keeper.py`). -/

/-- The keyword parameters `KeeperService.__init__` declares (besides
`self`); there is no `**kwargs`. -/
def keeperServiceInitKeywords : List String :=
  ["w3", "contract_address", "keeper_private_key",
   "gas_buffer_percentage", "transaction_timeout"]

/-- The keyword arguments `run_reveal_worker` passes when constructing
`KeeperService`. -/
def revealWorkerKeeperCallKeywords : List String :=
  ["w3", "contract_address", "keeper_private_key",
   "gas_buffer_percentage", "transaction_timeout", "max_gas_price_gwei"]

/-- Python call semantics for keyword arguments: a keyword that matches no
declared parameter of a function without `**kwargs` raises `TypeError`. -/
def pythonKeywordCall (declaredParams givenKeywords : List String) :
    Except PyError Unit :=
  if givenKeywords.all (fun k => declaredParams.contains k) then Except.ok ()
  else Except.error PyError.typeError

/-- Phases of `run_reveal_worker`, in program order: the `KeeperService`
construction happens first, then startup orphan recovery, then the
polling loop. -/
inductive RevealWorkerPhase
  | keeperInit
  | orphanRecovery
  | pollingLoop
  deriving DecidableEq, Repr

/-- Startup of `run_reveal_worker`: constructing the `KeeperService` is the
first effectful step; if it raises, the worker terminates in that phase and
neither orphan recovery nor the polling loop runs. -/
def runRevealWorkerStartup : Except (PyError × RevealWorkerPhase) RevealWorkerPhase :=
  match pythonKeywordCall keeperServiceInitKeywords revealWorkerKeeperCallKeywords with
  | Except.error e => Except.error (e, RevealWorkerPhase.keeperInit)
  | Except.ok _ => Except.ok RevealWorkerPhase.pollingLoop

/-- `create_resilient_worker`'s fixed restart delay (`RESTART_DELAY = 1`). -/
def supervisorRestartDelay : Nat := 1

/-- One supervised run of the reveal worker: it either crashes during
startup (revealing nothing) or reaches the loop and reveals some number of
tokens. -/
def revealWorkerRunReveals : Except (PyError × RevealWorkerPhase) Nat :=
  match runRevealWorkerStartup with
  | Except.error e => Except.error e
  | Except.ok _ => Except.ok 0

/-- Total tokens revealed across `n` supervised (re)spawns of the reveal
worker under `create_resilient_worker`: each crash is followed by a respawn
after `supervisorRestartDelay`, accumulating any reveals of successful runs. -/
def supervisedRevealTotal : Nat → Nat
  | 0 => 0
  | n + 1 =>
      match revealWorkerRunReveals with
      | Except.error _ => supervisedRevealTotal n
      | Except.ok k => k + supervisedRevealTotal n

/-! ## Byte and hex utilities.  Bytes are `Nat`s below 256. -/

/-- Big-endian byte expansion of a natural number into `count` bytes. -/
def natToBytesBE (count n : Nat) : List Nat :=
  (List.range count).map (fun i => (n >>> (8 * (count - 1 - i))) % 256)

/-- Big-endian 32-bit word from up to four bytes. -/
def bytesToWord32BE (b : List Nat) : Nat :=
  b.foldl (fun acc x => acc * 256 + x) 0

/-- Lowercase hex digit for a value below 16. -/
def hexDigitChar (n : Nat) : Char :=
  if n < 10 then Char.ofNat (48 + n) else Char.ofNat (87 + n)

/-- Two lowercase hex digits of one byte. -/
def byteToHex (b : Nat) : String :=
  String.mk [hexDigitChar (b / 16), hexDigitChar (b % 16)]

/-- Lowercase hex rendering of a byte list (Python `.hex()` /
`hexdigest()`). -/
def bytesToHex (l : List Nat) : String :=
  String.join (l.map byteToHex)

/-- Numeric value of one hex digit, upper or lower case. -/
def hexCharVal (c : Char) : Option Nat :=
  if 48 ≤ c.toNat ∧ c.toNat ≤ 57 then some (c.toNat - 48)
  else if 97 ≤ c.toNat ∧ c.toNat ≤ 102 then some (c.toNat - 87)
  else if 65 ≤ c.toNat ∧ c.toNat ≤ 70 then some (c.toNat - 55)
  else none

/-- Whether a character is a hex digit. -/
def isHexDigit (c : Char) : Bool := (hexCharVal c).isSome

/-- Python `int(s, 16)`: parse a hex string with an optional `0x`/`0X`
prefix; empty or non-hex input raises `ValueError`. -/
def pyIntHex (s : String) : Except PyError Nat :=
  let body := if strHasPrefix s ("0x") ∨ strHasPrefix s ("0X") then strDrop s 2 else s
  if body.data = [] ∨ ¬ body.data.all (fun c => isHexDigit c) then
    Except.error PyError.valueError
  else Except.ok (body.data.foldl (fun acc c => acc * 16 + ((hexCharVal c).getD 0)) 0)

/-- UTF-8 encoding of one code point. -/
def utf8EncodeCharNat (c : Nat) : List Nat :=
  if c < 128 then [c]
  else if c < 2048 then [192 + c / 64, 128 + c % 64]
  else if c < 65536 then [224 + c / 4096, 128 + (c / 64) % 64, 128 + c % 64]
  else [240 + c / 262144, 128 + (c / 4096) % 64, 128 + (c / 64) % 64, 128 + c % 64]

/-- Python `s.encode("utf-8")`. -/
def utf8Bytes (s : String) : List Nat :=
  (s.data.map (fun c => utf8EncodeCharNat c.toNat)).flatten

/-! ## SHA-256 (the `hashlib.sha256` the signature check builds on),
over `Nat` with explicit reduction modulo `2^32`. -/

/-- Reduce modulo `2^32`. -/
def w32 (n : Nat) : Nat := n % 4294967296

/-- Right rotation of a 32-bit word. -/
def rotr32 (n k : Nat) : Nat := w32 ((n >>> k) ||| (n <<< (32 - k)))

/-- SHA-256 round constants (decimal). -/
def sha256K : List Nat :=
  [1116352408, 1899447441, 3049323471, 3921009573,
   961987163, 1508970993, 2453635748, 2870763221,
   3624381080, 310598401, 607225278, 1426881987,
   1925078388, 2162078206, 2614888103, 3248222580,
   3835390401, 4022224774, 264347078, 604807628,
   770255983, 1249150122, 1555081692, 1996064986,
   2554220882, 2821834349, 2952996808, 3210313671,
   3336571891, 3584528711, 113926993, 338241895,
   666307205, 773529912, 1294757372, 1396182291,
   1695183700, 1986661051, 2177026350, 2456956037,
   2730485921, 2820302411, 3259730800, 3345764771,
   3516065817, 3600352804, 4094571909, 275423344,
   430227734, 506948616, 659060556, 883997877,
   958139571, 1322822218, 1537002063, 1747873779,
   1955562222, 2024104815, 2227730452, 2361852424,
   2428436474, 2756734187, 3204031479, 3329325298]

/-- SHA-256 working state. -/
structure Sha256State where
  a : Nat
  b : Nat
  c : Nat
  d : Nat
  e : Nat
  f : Nat
  g : Nat
  h : Nat
  deriving Repr

/-- SHA-256 initial hash value (decimal). -/
def sha256Init : Sha256State :=
  { a := 1779033703, b := 3144134277, c := 1013904242, d := 2773480762,
    e := 1359893119, f := 2600822924, g := 528734635, h := 1541459225 }

/-- Extend the 16 message words of a block towards the 64-entry schedule,
appending one derived word per unit of fuel (structural recursion so the
kernel can evaluate it). -/
def sha256ExtendAux : Nat → List Nat → List Nat
  | 0, w => w
  | n + 1, w =>
      let i := w.length
      let w15 := w.getD (i - 15) 0
      let w2 := w.getD (i - 2) 0
      let s0 := (rotr32 w15 7) ^^^ (rotr32 w15 18) ^^^ (w15 >>> 3)
      let s1 := (rotr32 w2 17) ^^^ (rotr32 w2 19) ^^^ (w2 >>> 10)
      let next := w32 (w.getD (i - 16) 0 + s0 + w.getD (i - 7) 0 + s1)
      sha256ExtendAux n (w ++ [next])

/-- One SHA-256 compression round. -/
def sha256Round (st : Sha256State) (kw : Nat × Nat) : Sha256State :=
  let s1 := (rotr32 st.e 6) ^^^ (rotr32 st.e 11) ^^^ (rotr32 st.e 25)
  let ch := (st.e &&& st.f) ^^^ ((4294967295 ^^^ st.e) &&& st.g)
  let temp1 := w32 (st.h + s1 + ch + kw.1 + kw.2)
  let s0 := (rotr32 st.a 2) ^^^ (rotr32 st.a 13) ^^^ (rotr32 st.a 22)
  let maj := (st.a &&& st.b) ^^^ (st.a &&& st.c) ^^^ (st.b &&& st.c)
  let temp2 := w32 (s0 + maj)
  { a := w32 (temp1 + temp2), b := st.a, c := st.b, d := st.c,
    e := w32 (st.d + temp1), f := st.e, g := st.f, h := st.g }

/-- Compress one 64-byte block into the running state. -/
def sha256ProcessBlock (st : Sha256State) (block : List Nat) : Sha256State :=
  let words := (List.range 16).map (fun i => bytesToWord32BE ((block.drop (4 * i)).take 4))
  let schedule := sha256ExtendAux 48 words
  let r := (sha256K.zip schedule).foldl sha256Round st
  { a := w32 (st.a + r.a), b := w32 (st.b + r.b), c := w32 (st.c + r.c),
    d := w32 (st.d + r.d), e := w32 (st.e + r.e), f := w32 (st.f + r.f),
    g := w32 (st.g + r.g), h := w32 (st.h + r.h) }

/-- Merkle–Damgård padding for SHA-256. -/
def sha256Pad (msg : List Nat) : List Nat :=
  let len := msg.length
  let k := (64 + 56 - ((len + 1) % 64)) % 64
  msg ++ [128] ++ List.replicate k 0 ++ natToBytesBE 8 (8 * len)

/-- SHA-256 digest (32 bytes) of a byte list. -/
def sha256 (msg : List Nat) : List Nat :=
  let padded := sha256Pad msg
  let blocks := (List.range (padded.length / 64)).map
    (fun i => (padded.drop (64 * i)).take 64)
  let st := blocks.foldl sha256ProcessBlock sha256Init
  natToBytesBE 4 st.a ++ natToBytesBE 4 st.b ++ natToBytesBE 4 st.c ++
  natToBytesBE 4 st.d ++ natToBytesBE 4 st.e ++ natToBytesBE 4 st.f ++
  natToBytesBE 4 st.g ++ natToBytesBE 4 st.h

/-- HMAC-SHA256 (RFC 2104, block size 64) as `hmac.new(key, msg,
hashlib.sha256)` computes it. -/
def hmacSha256 (key msg : List Nat) : List Nat :=
  let k0 := if key.length > 64 then sha256 key else key
  let kPad := k0 ++ List.replicate (64 - k0.length) 0
  let ipadKey := kPad.map (fun b => b ^^^ 54)
  let opadKey := kPad.map (fun b => b ^^^ 92)
  sha256 (opadKey ++ sha256 (ipadKey ++ msg))

/-! ## Keccak-256 (`Web3.keccak`), over `Nat` with reduction modulo `2^64`. -/

/-- Reduce modulo `2^64`. -/
def w64 (n : Nat) : Nat := n % 18446744073709551616

/-- All-ones 64-bit word. -/
def mask64 : Nat := 18446744073709551615

/-- Left rotation of a 64-bit word by `k < 64`. -/
def rotl64 (n k : Nat) : Nat := w64 ((n <<< k) ||| (n >>> (64 - k)))

/-- Keccak round constants (decimal). -/
def keccakRC : List Nat :=
  [1, 32898, 9223372036854808714,
   9223372039002292224, 32907, 2147483649,
   9223372039002292353, 9223372036854808585, 138,
   136, 2147516425, 2147483658,
   2147516555, 9223372036854775947, 9223372036854808713,
   9223372036854808579, 9223372036854808578, 9223372036854775936,
   32778, 9223372039002259466, 9223372039002292353,
   9223372036854808704, 2147483649, 9223372039002292232]

/-- Keccak rotation offsets, indexed `x + 5*y`. -/
def keccakRot : List Nat :=
  [0, 1, 31 * 2, 28, 27,
   36, 44, 6, 54 + 1, 20,
   3, 10, 40 + 3, 25, 39,
   41, 45, 15, 20 + 1, 8,
   18, 2, 59 + 2, 56, 14]

/-- The θ step. -/
def keccakTheta (st : List Nat) : List Nat :=
  let c := (List.range 5).map (fun x =>
    (st.getD x 0) ^^^ (st.getD (x + 5) 0) ^^^ (st.getD (x + 10) 0) ^^^
    (st.getD (x + 15) 0) ^^^ (st.getD (x + 20) 0))
  let d := (List.range 5).map (fun x =>
    (c.getD ((x + 4) % 5) 0) ^^^ rotl64 (c.getD ((x + 1) % 5) 0) 1)
  (List.range 25).map (fun i => (st.getD i 0) ^^^ (d.getD (i % 5) 0))

/-- The combined ρ and π steps. -/
def keccakRhoPi (st : List Nat) : List Nat :=
  (List.range 25).foldl (fun b i =>
      let x := i % 5
      let y := i / 5
      let j := y + 5 * ((2 * x + 3 * y) % 5)
      b.set j (rotl64 (st.getD i 0) (keccakRot.getD i 0)))
    (List.replicate 25 0)

/-- The χ step. -/
def keccakChi (b : List Nat) : List Nat :=
  (List.range 25).map (fun i =>
    let x := i % 5
    let y := i / 5
    (b.getD i 0) ^^^
      ((mask64 ^^^ (b.getD (((x + 1) % 5) + 5 * y) 0)) &&&
        (b.getD (((x + 2) % 5) + 5 * y) 0)))

/-- One Keccak-f round: θ, ρπ, χ, ι. -/
def keccakRound (st : List Nat) (rc : Nat) : List Nat :=
  let b := keccakChi (keccakRhoPi (keccakTheta st))
  b.set 0 ((b.getD 0 0) ^^^ rc)

/-- The Keccak-f[1600] permutation. -/
def keccakF (st : List Nat) : List Nat :=
  keccakRC.foldl keccakRound st

/-- Little-endian 64-bit lane from up to eight bytes. -/
def bytesToLaneLE (b : List Nat) : Nat :=
  b.foldr (fun x acc => acc * 256 + x) 0

/-- Little-endian byte expansion of one lane. -/
def laneToBytesLE (n : Nat) : List Nat :=
  (List.range 8).map (fun i => (n >>> (8 * i)) % 256)

/-- Keccak multi-rate padding for rate 136 (the original `0x01 … 0x80`
padding used by Ethereum's Keccak-256, not SHA-3's `0x06`). -/
def keccakPad (msg : List Nat) : List Nat :=
  let q := 136 - msg.length % 136
  if q = 1 then msg ++ [129]
  else msg ++ [1] ++ List.replicate (q - 2) 0 ++ [128]

/-- Absorb one 136-byte block. -/
def keccakAbsorbBlock (st : List Nat) (block : List Nat) : List Nat :=
  let lanes := (List.range 17).map (fun i => bytesToLaneLE ((block.drop (8 * i)).take 8))
  keccakF ((List.range 25).map (fun i =>
    (st.getD i 0) ^^^ (if i < 17 then lanes.getD i 0 else 0)))

/-- Keccak-256 digest (32 bytes) of a byte list. -/
def keccak256 (msg : List Nat) : List Nat :=
  let padded := keccakPad msg
  let blocks := (List.range (padded.length / 136)).map
    (fun i => (padded.drop (136 * i)).take 136)
  let st := blocks.foldl keccakAbsorbBlock (List.replicate 25 0)
  ((List.range 4).map (fun i => laneToBytesLE (st.getD i 0))).flatten

/-- Lowercase hex Keccak-256 digest. -/
def keccak256Hex (msg : List Nat) : String := bytesToHex (keccak256 msg)

/-! ## EIP-55 checksum addresses (`Web3.to_checksum_address`). -/

/-- EIP-55 mixed-case rendering of a lowercase 40-hex-char address body. -/
def eip55Checksum (lower40 : List Char) : List Char :=
  let hash := keccak256 (lower40.map Char.toNat)
  (List.range 40).map (fun i =>
    let c := (lower40.getD i 'x')
    let nib := if i % 2 = 0 then (hash.getD (i / 2) 0) / 16 else (hash.getD (i / 2) 0) % 16
    if 97 ≤ c.toNat ∧ c.toNat ≤ 102 ∧ 8 ≤ nib then Char.ofNat (c.toNat - 32) else c)

/-- `Web3.to_checksum_address`: requires a `0x`-prefixed 40-hex-char
address; accepts an all-lowercase, all-uppercase, or correctly checksummed
body (anything else raises), and returns the EIP-55 checksummed form. -/
def to_checksum_address (s : String) : Except PyError String :=
  if ¬ strHasPrefix s ("0x") then Except.error PyError.valueError
  else
    let body := s.data.drop 2
    if body.length ≠ 40 ∨ ¬ body.all (fun c => isHexDigit c) then
      Except.error PyError.valueError
    else
      let lower := body.map Char.toLower
      let check := eip55Checksum lower
      if body.all (fun c => ¬ c.isUpper) ∨ body.all (fun c => ¬ c.isLower) ∨
          body = check then
        Except.ok (String.mk ([Char.ofNat 48, Char.ofNat 120] ++ check))
      else Except.error PyError.valueError

deriving instance DecidableEq for Except

/-! ## Store model: authors, mint events, tokens.
Per the schema exercised by the repository's test suite, `tokens_s0` has a
unique key on `token_id`; `mint_events` carries plain (non-unique) indexes
on `tx_hash` and `log_index`. -/

/-- Python `s[-n:]`. -/
def strTakeLast (s : String) (n : Nat) : String :=
  String.mk (s.data.drop (s.data.length - n))

/-- Python `s.replace(pat, "")` (left-to-right, non-overlapping), by fuel. -/
def listReplaceEmpty : Nat → List Char → List Char → List Char
  | 0, s, _ => s
  | _ + 1, [], _ => []
  | fuel + 1, c :: rest, p =>
      if (c :: rest).take p.length = p ∧ p ≠ [] then
        listReplaceEmpty fuel ((c :: rest).drop p.length) p
      else c :: listReplaceEmpty fuel rest p

/-- Python `s.replace(pat, "")`. -/
def strReplaceEmpty (s pat : String) : String :=
  String.mk (listReplaceEmpty s.data.length s.data pat.data)

/-- The `Author` row, with the fields the pipeline consumes. -/
structure Author where
  id : Nat
  wallet_address : String
  prompt_text : Option String := none
  twitter_handle : Option String := none
  deriving DecidableEq, Repr

/-- The `MintEvent` row (`models/mint_event.py`), timestamps omitted. -/
structure MintEvent where
  tx_hash : String
  log_index : Nat
  block_number : Nat
  token_id : Nat
  author_wallet : String
  recipient : String
  deriving DecidableEq, Repr

/-- The relational store as the pipeline sees it. -/
structure Store where
  authors : List Author
  mint_events : List MintEvent
  tokens : List Token
  deriving DecidableEq, Repr

/-- `AuthorRepository.get_by_wallet`: case-insensitive lookup. -/
def getByWallet (st : Store) (w : String) : Option Author :=
  st.authors.find? (fun a => strToLower a.wallet_address == strToLower w)

/-- `MintEventRepository.exists`: duplicate detection on
`(tx_hash, log_index)`. -/
def mintEventExists (st : Store) (tx : String) (idx : Nat) : Bool :=
  st.mint_events.any (fun e => e.tx_hash == tx && e.log_index == idx)

/-- The application settings the modelled paths read. -/
structure Settings where
  glisk_nft_contract_address : String
  glisk_default_author_wallet : String
  alchemy_webhook_secret : String := ""
  batch_reveal_max_tokens : Nat := 50
  batch_reveal_wait_seconds : Nat := 5
  deriving Repr

/-! ## Webhook event decoding (`api/routes/webhooks.py`). -/

/-- One log entry of the Alchemy GraphQL payload (string-typed hex). -/
structure WebhookLog where
  accountAddress : String
  topics : List String
  dataField : String
  txHash : Option String := none
  txStatus : Option Nat := none
  index : Option Nat := none
  removed : Bool := false
  deriving DecidableEq, Repr

/-- The decoded `BatchMinted` event of the webhook path. -/
structure DecodedEvent where
  minter : String
  prompt_author : String
  start_token_id : Nat
  quantity : Nat
  total_paid : Nat
  tx_hash : String
  block_number : Nat
  log_index : Nat
  deriving DecidableEq, Repr

/-- `decode_batch_minted_event` (webhook path): addresses from the last 20
bytes of `topics[1]`/`topics[2]` (EIP-55 checksummed), `start_token_id`
from `topics[3]` as a full uint256, `quantity` from data bytes [0,32),
`total_paid` from data bytes [32,64); any failure raises `ValueError`. -/
def decode_batch_minted_event (log : WebhookLog) (block_number : Nat) :
    Except PyError DecodedEvent :=
  if log.topics.length < 4 then Except.error PyError.valueError
  else
    match to_checksum_address ("0x" ++ strTakeLast (log.topics.getD 1 ("")) 40),
          to_checksum_address ("0x" ++ strTakeLast (log.topics.getD 2 ("")) 40),
          pyIntHex (log.topics.getD 3 ("")) with
    | Except.ok minter, Except.ok author, Except.ok start =>
        let data_bytes :=
          if strHasPrefix log.dataField ("0x") then strDrop log.dataField 2
          else log.dataField
        if data_bytes.data.length < 128 then Except.error PyError.valueError
        else
          match pyIntHex (String.mk (data_bytes.data.take 64)),
                pyIntHex (String.mk ((data_bytes.data.drop 64).take 64)) with
          | Except.ok quantity, Except.ok total =>
              match log.txHash with
              | some h =>
                  if h = "" then Except.error PyError.valueError
                  else
                    match log.index with
                    | some idx =>
                        Except.ok { minter, prompt_author := author,
                                    start_token_id := start, quantity,
                                    total_paid := total, tx_hash := h,
                                    block_number, log_index := idx }
                    | none => Except.error PyError.valueError
              | none => Except.error PyError.valueError
          | _, _ => Except.error PyError.valueError
    | _, _, _ => Except.error PyError.valueError

/-! ## Recovery (log-replay) event decoding
(`services/blockchain/event_recovery.py`). -/

/-- One raw `eth_getLogs` receipt (byte-typed fields). -/
structure RecoveryLog where
  topics : List (List Nat)
  dataBytes : List Nat
  transactionHash : List Nat
  blockNumber : Nat
  logIndex : Nat
  deriving DecidableEq, Repr

/-- The decoded event dictionary of the replay path. -/
structure RecoveredEvent where
  minter : String
  author : String
  start_token_id : Nat
  quantity : Nat
  total_paid : Nat
  tx_hash : String
  block_number : Nat
  log_index : Nat
  deriving DecidableEq, Repr

/-- `_decode_batch_minted_event` (replay path), exactly as written in the
source: addresses from `topics[1]`/`topics[2]`, then `start_token_id` from
data hex chars [0,64), `quantity` from [64,128) and `total_paid` from
[128,192) — i.e. it treats the data section as the
(startTokenId, quantity, totalPaid) tuple and never reads `topics[3]`. -/
def decodeBatchMintedRecovery (log : RecoveryLog) : Except PyError RecoveredEvent :=
  match to_checksum_address ("0x" ++ strTakeLast (bytesToHex (log.topics.getD 1 [])) 40),
        to_checksum_address ("0x" ++ strTakeLast (bytesToHex (log.topics.getD 2 [])) 40) with
  | Except.ok minter, Except.ok author =>
      let data_hex := bytesToHex log.dataBytes
      match pyIntHex (String.mk (data_hex.data.take 64)),
            pyIntHex (String.mk ((data_hex.data.drop 64).take 64)),
            pyIntHex (String.mk ((data_hex.data.drop 128).take 64)) with
      | Except.ok start, Except.ok qty, Except.ok total =>
          Except.ok { minter, author, start_token_id := start, quantity := qty,
                      total_paid := total,
                      tx_hash := "0x" ++ bytesToHex log.transactionHash,
                      block_number := log.blockNumber, log_index := log.logIndex }
      | _, _, _ => Except.error PyError.valueError
  | _, _ => Except.error PyError.valueError

/-! ## Webhook signature validation (`services/blockchain/alchemy_signature.py`
and `api/dependencies.py`). -/

/-- `validate_alchemy_signature`: recompute HMAC-SHA256 of the raw body
under the signing key, lowercase both hex digests, compare. -/
def validate_alchemy_signature (raw_body : List Nat) (signature signing_key : String) :
    Bool :=
  let expected := bytesToHex (hmacSha256 (utf8Bytes signing_key) raw_body)
  strToLower expected == strToLower signature

/-- An inbound webhook request: the exact body bytes and the
`X-Alchemy-Signature` header if present. -/
structure WebhookRequest where
  raw_body : List Nat
  x_alchemy_signature : Option String := none
  deriving Repr

/-- Responses of the webhook endpoint, by their JSON `status` field or
raised HTTP error. -/
inductive WebhookResponse
  | success (events : List (Nat × List Nat))
  | successNoMatch
  | successNoNew
  | duplicate (tx_hash : String) (log_index : Nat)
  | badRequest
  | serverError
  | unauthorized
  deriving DecidableEq, Repr

/-- `validate_webhook_signature` dependency: a missing (or empty) header or
a failing digest comparison raises 401 before any body processing; on
success the exact raw body is handed to the endpoint. -/
def validate_webhook_signature (req : WebhookRequest) (signing_key : String) :
    Except WebhookResponse (List Nat) :=
  match req.x_alchemy_signature with
  | none => Except.error WebhookResponse.unauthorized
  | some sig =>
      if sig = "" then Except.error WebhookResponse.unauthorized
      else if validate_alchemy_signature req.raw_body sig signing_key then
        Except.ok req.raw_body
      else Except.error WebhookResponse.unauthorized

/-! ## Webhook endpoint (`receive_alchemy_webhook`). -/

/-- The parsed GraphQL payload shape the endpoint consumes. -/
structure WebhookPayload where
  blockNumber : Option Nat
  logs : List WebhookLog
  deriving DecidableEq, Repr

/-- `topics[0]` filter constant:
`"0x" + keccak256("BatchMinted(address,address,uint256,uint256,uint256)")`. -/
def batchMintedSignature : String :=
  "0x" ++ keccak256Hex (utf8Bytes ("BatchMinted(address,address,uint256,uint256,uint256)"))

/-- One atomic per-log persistence: the `MintEvent` row plus `quantity`
`Token` rows with ids `[start_token_id, start_token_id + quantity - 1]`,
each `detected` with the resolved author, committed together. -/
def insertMintRecords (st : Store) (ev : DecodedEvent) (author : Author) :
    Store × List Nat :=
  let me : MintEvent :=
    { tx_hash := ev.tx_hash, log_index := ev.log_index,
      block_number := ev.block_number, token_id := ev.start_token_id,
      author_wallet := ev.prompt_author, recipient := ev.minter }
  let ids := (List.range ev.quantity).map (fun i => ev.start_token_id + i)
  let newTokens := ids.map (fun tid =>
    ({ token_id := tid, author_id := author.id,
       status := TokenStatus.detected } : Token))
  ({ st with mint_events := st.mint_events ++ [me],
             tokens := st.tokens ++ newTokens }, ids)

/-- The per-log loop of `receive_alchemy_webhook`: skip non-BatchMinted,
failed-transaction and removed logs; abort with 400 on a decode error;
return the `duplicate` response (committing nothing further) when the
`(tx_hash, log_index)` pair already exists; otherwise resolve the author
(default fallback, 500 if the default is absent) and persist atomically. -/
def processLogs (settings : Settings) (block_number : Nat) :
    List WebhookLog → Store → List (Nat × List Nat) → WebhookResponse × Store
  | [], st, processed =>
      (if processed = [] then WebhookResponse.successNoNew
       else WebhookResponse.success processed, st)
  | log :: rest, st, processed =>
      if log.topics = [] ∨ (log.topics.getD 0 ("")) ≠ batchMintedSignature then
        processLogs settings block_number rest st processed
      else if log.txStatus ≠ some 1 then
        processLogs settings block_number rest st processed
      else if log.removed then
        processLogs settings block_number rest st processed
      else
        match decode_batch_minted_event log block_number with
        | Except.error _ => (WebhookResponse.badRequest, st)
        | Except.ok ev =>
            if mintEventExists st ev.tx_hash ev.log_index then
              (WebhookResponse.duplicate ev.tx_hash ev.log_index, st)
            else
              match (match getByWallet st ev.prompt_author with
                     | some a => some a
                     | none => getByWallet st settings.glisk_default_author_wallet) with
              | some author =>
                  let r := insertMintRecords st ev author
                  processLogs settings block_number rest r.1
                    (processed ++ [(r.2.length, r.2)])
              | none => (WebhookResponse.serverError, st)

/-- `receive_alchemy_webhook` on a parsed payload: 400 without a block
number, a no-match success when no log carries the configured contract
address (case-insensitive), else the per-log loop. -/
def receive_alchemy_webhook (settings : Settings) (st : Store)
    (p : WebhookPayload) : WebhookResponse × Store :=
  match p.blockNumber with
  | none => (WebhookResponse.badRequest, st)
  | some bn =>
      let contract := strToLower settings.glisk_nft_contract_address
      let matching := p.logs.filter (fun l => strToLower l.accountAddress == contract)
      if matching = [] then (WebhookResponse.successNoMatch, st)
      else processLogs settings bn matching st []

/-- The full request path: signature dependency first (401 leaves the store
untouched), then JSON parsing (400 on failure), then the endpoint. -/
def handleWebhookRequest (settings : Settings) (signing_key : String)
    (parse : List Nat → Option WebhookPayload) (st : Store)
    (req : WebhookRequest) : WebhookResponse × Store :=
  match validate_webhook_signature req signing_key with
  | Except.error r => (r, st)
  | Except.ok body =>
      match parse body with
      | none => (WebhookResponse.badRequest, st)
      | some p => receive_alchemy_webhook settings st p

/-! ## Replay persistence (`event_recovery.store_recovered_events`).
The loop body runs once per token of the batch: each iteration attempts to
insert one `MintEvent` (keyed with that token's id) and one `Token`; a
unique-key violation (the `token_id` key) skips the pair and continues. -/

/-- One (MintEvent, Token) pair insert of the replay loop: fails with
`IntegrityError` when a token with this `token_id` already exists. -/
def storeRecoveredPair (st : Store) (ev : RecoveredEvent) (author : Author)
    (token_id : Nat) : Except PyError Store :=
  if st.tokens.any (fun t => t.token_id == token_id) then
    Except.error PyError.integrityError
  else
    let me : MintEvent :=
      { tx_hash := ev.tx_hash, log_index := ev.log_index,
        block_number := ev.block_number, token_id := token_id,
        author_wallet := ev.author, recipient := ev.minter }
    Except.ok { st with
      mint_events := st.mint_events ++ [me],
      tokens := st.tokens ++
        [({ token_id := token_id, author_id := author.id,
            status := TokenStatus.detected } : Token)] }

/-- `store_recovered_events`: per event, resolve the author (default
fallback; skip the event when neither exists), then expand the batch into
one `(MintEvent, Token)` pair per token id, counting stored and skipped
pairs. -/
def store_recovered_events (events : List RecoveredEvent) (st : Store)
    (settings : Settings) : Store × Nat × Nat :=
  events.foldl (fun acc ev =>
      match (match getByWallet acc.1 ev.author with
             | some a => some a
             | none => getByWallet acc.1 settings.glisk_default_author_wallet) with
      | none => acc
      | some author =>
          (List.range ev.quantity).foldl (fun acc2 i =>
              match storeRecoveredPair acc2.1 ev author (ev.start_token_id + i) with
              | Except.ok st3 => (st3, acc2.2.1 + 1, acc2.2.2)
              | Except.error _ => (acc2.1, acc2.2.1, acc2.2.2 + 1))
            acc)
    (st, 0, 0)

/-! ## Gap repair (`repositories/token.py` `get_missing_token_ids` and
`services/blockchain/token_recovery.py` `recover_missing_tokens`). -/

/-- `TokenRepository.get_missing_token_ids`: the SQL
`generate_series(1, max_token_id - 1)` LEFT JOIN against `tokens_s0`
keeping rows with no match, ordered ascending, with an optional LIMIT. -/
def get_missing_token_ids (st : Store) (max_token_id : Nat)
    (limit : Option Nat) : List Nat :=
  let series := (List.range (max_token_id - 1)).map (fun i => i + 1)
  let missing := series.filter (fun i => ! st.tokens.any (fun t => t.token_id == i))
  match limit with
  | some l => missing.take l
  | none => missing

/-- The contract views gap repair reads per missing id. -/
structure ChainView where
  tokenPromptAuthor : Nat → String
  isRevealed : Nat → Bool
  tokenURI : Nat → String

/-- The token record `recover_missing_tokens` builds for one missing id:
already revealed on-chain ⇒ status `revealed` with the metadata cid
extracted from an `ipfs://` token URI (`None` when the URI does not start
with `ipfs://`) and no reveal tx hash; not revealed ⇒ status `detected`. -/
def buildRecoveredToken (chain : ChainView) (author : Author) (token_id : Nat) :
    Token :=
  if chain.isRevealed token_id then
    let token_uri := chain.tokenURI token_id
    let metadata_cid :=
      if strHasPrefix token_uri ("ipfs://") then
        some (strReplaceEmpty token_uri ("ipfs://"))
      else none
    { token_id := token_id, author_id := author.id,
      status := TokenStatus.revealed, metadata_cid := metadata_cid,
      generation_attempts := 0 }
  else
    { token_id := token_id, author_id := author.id,
      status := TokenStatus.detected, generation_attempts := 0 }

/-- One iteration of the recovery loop over a missing id.  `callFails`
models a per-id RPC/lookup exception (captured and recorded, loop
continues); `raced` models a concurrent webhook insert of the same id
landing before our flush, which turns our insert into an
`IntegrityError` counted as a skipped duplicate. -/
def recoverStep (chain : ChainView) (callFails : Nat → Bool)
    (raced : Nat → Option Token) (settings : Settings)
    (acc : Store × Nat × Nat × List Nat) (id : Nat) :
    Store × Nat × Nat × List Nat :=
  let st0 := acc.1
  let st := match raced id with
            | some t => { st0 with tokens := st0.tokens ++ [t] }
            | none => st0
  if callFails id then (st, acc.2.1, acc.2.2.1, acc.2.2.2 ++ [id])
  else
    match (match getByWallet st (chain.tokenPromptAuthor id) with
           | some a => some a
           | none => getByWallet st settings.glisk_default_author_wallet) with
    | none => (st, acc.2.1, acc.2.2.1, acc.2.2.2 ++ [id])
    | some author =>
        if st.tokens.any (fun t => t.token_id == id) then
          (st, acc.2.1, acc.2.2.1 + 1, acc.2.2.2)
        else
          ({ st with tokens := st.tokens ++ [buildRecoveredToken chain author id] },
           acc.2.1 + 1, acc.2.2.1, acc.2.2.2)

/-- `recover_missing_tokens` (with `next_token_id` already read from the
contract): fold the recovery step over the missing ids.  Returns the store
and (recovered, skipped duplicates, errored ids). -/
def recover_missing_tokens (chain : ChainView) (callFails : Nat → Bool)
    (raced : Nat → Option Token) (settings : Settings) (st : Store)
    (next_token_id : Nat) (limit : Option Nat) :
    Store × Nat × Nat × List Nat :=
  (get_missing_token_ids st next_token_id limit).foldl
    (recoverStep chain callFails raced settings) (st, 0, 0, [])

/-! ## Concrete logs (from the repository's own decoder test data). -/

/-- The minter address bytes `0x1234567890123456789012345678901234567890`. -/
def cMinterBytes : List Nat :=
  [0x12, 0x34, 0x56, 0x78, 0x90, 0x12, 0x34, 0x56, 0x78, 0x90,
   0x12, 0x34, 0x56, 0x78, 0x90, 0x12, 0x34, 0x56, 0x78, 0x90]

/-- The author address bytes `0x742d35cc6634c0532925a3b844bc9e7595f0beb0`. -/
def cAuthorBytes : List Nat :=
  [0x74, 0x2d, 0x35, 0xcc, 0x66, 0x34, 0xc0, 0x53, 0x29, 0x25,
   0xa3, 0xb8, 0x44, 0xbc, 0x9e, 0x75, 0x95, 0xf0, 0xbe, 0xb0]

/-- The log of the repository's decoder regression test, in the real event
layout: `startTokenId = 5` indexed in `topics[3]`, 64-byte data section
holding `quantity = 3` and `totalPaid = 10^18`. -/
def criticalTestRecoveryLog : RecoveryLog :=
  { topics := [List.replicate 32 0,
               List.replicate 12 0 ++ cMinterBytes,
               List.replicate 12 0 ++ cAuthorBytes,
               List.replicate 31 0 ++ [5]],
    dataBytes := (List.replicate 31 0 ++ [3]) ++ natToBytesBE 32 1000000000000000000,
    transactionHash := List.replicate 32 0xab,
    blockNumber := 100,
    logIndex := 0 }

/-- The same log but with the 96-byte data layout the replay decoder
assumes (`startTokenId ‖ quantity ‖ totalPaid`), where the data-section
start id (7) deliberately differs from `topics[3]` (5). -/
def assumedLayoutRecoveryLog : RecoveryLog :=
  { criticalTestRecoveryLog with
    dataBytes := (List.replicate 31 0 ++ [7]) ++ (List.replicate 31 0 ++ [3]) ++
      natToBytesBE 32 1000000000000000000 }

/-- The webhook-path (string-typed, GraphQL) rendering of the critical-test
log. -/
def criticalTestWebhookLog : WebhookLog :=
  { accountAddress := "0x00000000000000000000000000000000000000cc",
    topics := criticalTestRecoveryLog.topics.map (fun t => "0x" ++ bytesToHex t),
    dataField := "0x" ++ bytesToHex criticalTestRecoveryLog.dataBytes,
    txHash := some ("0x" ++ bytesToHex criticalTestRecoveryLog.transactionHash),
    txStatus := some 1,
    index := some 0 }

/-- The `(tx_hash, log_index)` keys of the stored mint events. -/
def mintKeys (st : Store) : List (String × Nat) :=
  st.mint_events.map (fun e => (e.tx_hash, e.log_index))

/-- Concrete settings for the end-to-end fixtures. -/
def cSettings : Settings :=
  { glisk_nft_contract_address := "0x00000000000000000000000000000000000000cc",
    glisk_default_author_wallet := "0xd0" }

/-- The author row matching the fixture's prompt author (stored lowercase;
lookups are case-insensitive). -/
def cAuthorRow : Author :=
  { id := 1, wallet_address := "0x742d35cc6634c0532925a3b844bc9e7595f0beb0" }

/-- A store holding only the fixture author. -/
def cStore0 : Store := { authors := [cAuthorRow], mint_events := [], tokens := [] }

/-- A valid `BatchMinted` webhook log: correct signature topic, the
configured contract (in different case), tx status 1, start id 1,
quantity 1. -/
def cMintWebhookLog : WebhookLog :=
  { accountAddress := "0x00000000000000000000000000000000000000CC",
    topics := [batchMintedSignature,
               "0x" ++ bytesToHex (List.replicate 12 0 ++ cMinterBytes),
               "0x" ++ bytesToHex (List.replicate 12 0 ++ cAuthorBytes),
               "0x" ++ bytesToHex (List.replicate 31 0 ++ [1])],
    dataField := "0x" ++ bytesToHex
      ((List.replicate 31 0 ++ [1]) ++ natToBytesBE 32 1000000000000000000),
    txHash := some ("0x" ++ bytesToHex (List.replicate 32 171)),
    txStatus := some 1,
    index := some 0 }

/-- The parsed payload carrying the fixture log. -/
def cPayload : WebhookPayload := { blockNumber := some 100, logs := [cMintWebhookLog] }

/-- A decoded replay event with `quantity = 2`. -/
def cReplayEvent2 : RecoveredEvent :=
  { minter := "0x1234567890123456789012345678901234567890",
    author := "0x742d35cc6634c0532925a3b844bc9e7595f0beb0",
    start_token_id := 1, quantity := 2, total_paid := 0,
    tx_hash := "0xdup", block_number := 10, log_index := 0 }

/-! ## Helper lemmas and sanity checks. -/

/-- Sanity: SHA-256 of the empty input (FIPS 180 test vector). -/
theorem sha256_empty_vector :
    bytesToHex (sha256 []) =
      "e3b0c44298fc1c149afbf4c8996fb92427ae41e4649b934ca495991b7852b855" := by
  decide

/-- Sanity: SHA-256 of `"abc"` (FIPS 180 test vector). -/
theorem sha256_abc_vector :
    bytesToHex (sha256 (utf8Bytes ("abc"))) =
      "ba7816bf8f01cfea414140de5dae2223b00361a396177a9cb410ff61f20015ad" := by
  decide

/-- Sanity: HMAC-SHA256 test case 2 of RFC 4231. -/
theorem hmacSha256_rfc4231_tc2 :
    bytesToHex (hmacSha256 (utf8Bytes ("Jefe"))
        (utf8Bytes ("what do ya want for nothing?"))) =
      "5bdcc146bf60754e6a042426089575c75a003f089d2739839dec58b964ec3843" := by
  decide

/-- Sanity: Keccak-256 of the empty input (the well-known Ethereum
constant). -/
theorem keccak256_empty_vector :
    keccak256Hex [] =
      "c5d2460186f7233c927e7db2dcc703c0e500b653ca82273b7bfad8045d85a470" := by
  decide

/-- Sanity: the first EIP-55 example address round-trips. -/
theorem eip55_example_vector :
    to_checksum_address ("0x5aaeb6053f3e94c9b9a09f33669435e7ef1beaed") =
      Except.ok ("0x5aAeb6053F3E94C9b9A09f33669435E7Ef1BeAed") := by
  decide

/-- `validate_token_ids` accepts exactly the arrays of length 1..50. -/
theorem validate_token_ids_ok_iff (v : List Nat) :
    validate_token_ids v = Except.ok v ↔ 1 ≤ v.length ∧ v.length ≤ 50 := by
  unfold validate_token_ids
  rcases v with _ | ⟨a, rest⟩
  · simp
  · by_cases h50 : (a :: rest).length > 50
    · simp only [List.length_cons] at h50 ⊢
      have hne : ¬ (a :: rest = [] ∨ rest.length + 1 < 1) := by simp
      simp only [List.length_cons, hne, if_false, if_pos (by omega : rest.length + 1 > 50)]
      constructor
      · intro h; exact absurd h (by simp)
      · intro h; omega
    · simp only [List.length_cons] at h50 ⊢
      have hne : ¬ (a :: rest = [] ∨ rest.length + 1 < 1) := by simp
      simp only [hne, if_false, List.length_cons,
        if_neg (by omega : ¬ rest.length + 1 > 50)]
      constructor
      · intro _; omega
      · intro _; trivial

/-- A leased batch never exceeds the requested limit. -/
theorem getReadyForReveal_length_le (store : List Token) (limit : Nat) :
    (getReadyForReveal store limit).length ≤ limit := by
  simp only [getReadyForReveal, List.length_take]
  exact min_le_left _ _

/-- The two-phase accumulated batch never exceeds `batch_max_size`. -/
theorem getBatch_length_le (s1 s2 : List Token) (m : Nat) :
    (getBatch s1 s2 m).length ≤ m := by
  unfold getBatch
  dsimp only
  split
  · simp
  · split
    · have h1 : (getReadyForReveal s1 m).length ≤ m := getReadyForReveal_length_le s1 m
      have h2 : ((getReadyForReveal s2 (m - (getReadyForReveal s1 m).length)).filter
          (fun t => decide (t.token_id ∉
            (getReadyForReveal s1 m).map (fun t => t.token_id)))).length ≤
          m - (getReadyForReveal s1 m).length := by
        calc ((getReadyForReveal s2 (m - (getReadyForReveal s1 m).length)).filter _).length
            ≤ (getReadyForReveal s2 (m - (getReadyForReveal s1 m).length)).length :=
              List.length_filter_le _ _
          _ ≤ m - (getReadyForReveal s1 m).length := getReadyForReveal_length_le _ _
      simp only [List.length_append]
      omega
    · exact getReadyForReveal_length_le s1 m

/-! ## Claim theorems. -/

/-- C9: every `RevealTransaction.token_ids` array the validator accepts has
length in [1, 50] (and exactly those); the metadata-URI array always has
the same length as the token-id array submitted to `revealTokens`; the
two-phase batch accumulation never produces a batch larger than the
maximum; and the `RevealTransaction` row built from a confirmed batch of at
most 50 passes the validator with one id per batch token. -/
theorem C9_reveal_batch_bounds :
    (∀ v : List Nat, validate_token_ids v = Except.ok v ↔ 1 ≤ v.length ∧ v.length ≤ 50) ∧
    (∀ s1 s2 m, (getBatch s1 s2 m).length ≤ m) ∧
    (∀ tokens, (revealMetadataUris tokens).length = (revealTokenIdArray tokens).length) ∧
    (∀ s1 s2 m tx bn rt ts, m ≤ 50 →
       processRevealBatchCommit (getBatch s1 s2 m) tx bn = some (rt, ts) →
       validate_token_ids rt.token_ids = Except.ok rt.token_ids ∧
       rt.token_ids.length = (revealMetadataUris (getBatch s1 s2 m)).length) := by
  refine ⟨validate_token_ids_ok_iff, getBatch_length_le, ?_, ?_⟩
  · intro tokens
    simp [revealMetadataUris, revealTokenIdArray]
  · intro s1 s2 m tx bn rt ts hm h
    unfold processRevealBatchCommit at h
    split at h
    · exact absurd h (by simp)
    · rename_i hne
      have hrt : rt.token_ids = (getBatch s1 s2 m).map (fun t => t.id) := by
        have := congrArg (fun x => (Option.map Prod.fst x)) h
        simp at this
        rw [← this]
      have hlen : rt.token_ids.length = (getBatch s1 s2 m).length := by
        rw [hrt]; simp
      have hpos : 1 ≤ (getBatch s1 s2 m).length := by
        rcases h' : getBatch s1 s2 m with _ | ⟨a, l⟩
        · exact absurd h' hne
        · simp
      have hle : (getBatch s1 s2 m).length ≤ m := getBatch_length_le s1 s2 m
      constructor
      · exact (validate_token_ids_ok_iff rt.token_ids).mpr (by omega)
      · simp [revealMetadataUris, hlen]

/-- C9 witness: a concrete two-poll scenario — one ready token leased
first, one accumulated after the wait — whose `RevealTransaction` row
passes the validator. -/
theorem C9_reveal_batch_bounds_witness :
    validate_token_ids
        (RevealTransaction.token_ids
          { token_ids := [1, 2], tx_hash := some ("0xabc"),
            block_number := some 7, status := "confirmed" }) =
      Except.ok [1, 2] := by
  have h := C9_reveal_batch_bounds.2.2.2
    [{ id := 1, token_id := 11, author_id := 1, status := TokenStatus.ready }]
    [{ id := 2, token_id := 12, author_id := 1, status := TokenStatus.ready }]
    50 ("0xabc") 7
    { token_ids := [1, 2], tx_hash := some ("0xabc"),
      block_number := some 7, status := "confirmed" }
    [{ id := 1, token_id := 11, author_id := 1, status := TokenStatus.revealed,
       reveal_tx_hash := some ("0xabc") },
     { id := 2, token_id := 12, author_id := 1, status := TokenStatus.revealed,
       reveal_tx_hash := some ("0xabc") }]
    (by decide) (by decide)
  exact h.1

/-- C10: `run_reveal_worker` passes the keyword argument
`max_gas_price_gwei`, which `KeeperService.__init__` does not declare, so
every invocation raises `TypeError` in the keeper-construction phase —
before orphan recovery and before the polling loop — and under the
supervisor's fixed 1-second restart policy the respawned worker crashes the
same way every time, so no supervised run ever reveals a token. -/
theorem C10_reveal_worker_always_crashes :
    runRevealWorkerStartup =
      Except.error (PyError.typeError, RevealWorkerPhase.keeperInit) ∧
    ¬ keeperServiceInitKeywords.contains "max_gas_price_gwei" ∧
    supervisorRestartDelay = 1 ∧
    ∀ n : Nat, supervisedRevealTotal n = 0 := by
  refine ⟨by decide, by decide, rfl, ?_⟩
  intro n
  induction n with
  | zero => rfl
  | succ n ih =>
      have hrun : revealWorkerRunReveals =
          Except.error (PyError.typeError, RevealWorkerPhase.keeperInit) := by decide
      simp only [supervisedRevealTotal, hrun]
      exact ih

/-- C8 counterexample: a permanent error in the content-upload worker does
NOT transition the token to `failed` (as it does in the image-generation
stage); the token stays in `uploading`. -/
theorem C8_counterexample_permanent_stays_uploading :
    (uploadWorkerCommit
        { id := 1, token_id := 7, author_id := 1, status := TokenStatus.uploading }
        (UploadOutcome.permanent ("Pinata authentication failed (401)"))).status =
      TokenStatus.uploading ∧
    TokenStatus.uploading ≠ TokenStatus.failed := by
  decide

/-- C8 amended: in the content-upload worker a transient error leaves the
token in `uploading` for the next poll with the attempt counter bumped and
the error truncated to at most 1000 characters — but unlike the
image-generation stage (where a permanent error marks the token `failed`),
a permanent or missing-data error here is handled the same way as a
transient one: the token also stays `uploading` with a truncated error, and
this worker never moves any token to `failed`. -/
theorem C8_upload_worker_error_handling (t : Token) (msg : String)
    (h : t.status = TokenStatus.uploading) :
    ((uploadWorkerCommit t (UploadOutcome.transient msg)).status = TokenStatus.uploading ∧
     (uploadWorkerCommit t (UploadOutcome.transient msg)).generation_attempts =
       t.generation_attempts + 1 ∧
     (uploadWorkerCommit t (UploadOutcome.transient msg)).generation_error =
       some (pyTruncate1000 msg) ∧
     (pyTruncate1000 msg).length ≤ 1000) ∧
    ((uploadWorkerCommit t (UploadOutcome.permanent msg)).status = TokenStatus.uploading ∧
     (uploadWorkerCommit t (UploadOutcome.permanent msg)).generation_attempts =
       t.generation_attempts + 1 ∧
     (uploadWorkerCommit t (UploadOutcome.permanent msg)).generation_error =
       some (pyTruncate1000 ("IPFS upload failed: " ++ msg))) ∧
    ((uploadWorkerCommit t (UploadOutcome.missingData msg)).status = TokenStatus.uploading) ∧
    (∀ o : UploadOutcome, (uploadWorkerCommit t o).status ≠ TokenStatus.failed) ∧
    ((imageWorkerCommits { t with status := TokenStatus.detected }
        (GenOutcome.permanent msg)).map Token.status =
      [TokenStatus.generating, TokenStatus.failed]) := by
  have htrunc : (pyTruncate1000 msg).length ≤ 1000 := by
    simp only [pyTruncate1000, String.length, List.length_take]
    exact min_le_left _ _
  refine ⟨⟨by simp [uploadWorkerCommit, h], by simp [uploadWorkerCommit],
           by simp [uploadWorkerCommit], htrunc⟩,
         ⟨by simp [uploadWorkerCommit, h], by simp [uploadWorkerCommit],
           by simp [uploadWorkerCommit]⟩,
         by simp [uploadWorkerCommit, h], ?_, ?_⟩
  · intro o
    cases o with
    | success ic mc =>
        simp only [uploadWorkerCommit, repoUpdateIpfsCids]
        by_cases hc : ic = "" ∨ mc = ""
        · simp [hc, h]
        · simp [hc, h]
    | transient m => simp [uploadWorkerCommit, h]
    | permanent m => simp [uploadWorkerCommit, h]
    | missingData m => simp [uploadWorkerCommit, h]
  · simp [imageWorkerCommits, repoMarkFailed]

/-- C8 witness: the amended behaviour evaluated on a concrete uploading
token and message. -/
theorem C8_upload_worker_error_handling_witness :
    (uploadWorkerCommit
        { id := 2, token_id := 9, author_id := 1, status := TokenStatus.uploading }
        (UploadOutcome.transient ("network timeout"))).status =
      TokenStatus.uploading := by
  have h := C8_upload_worker_error_handling
    { id := 2, token_id := 9, author_id := 1, status := TokenStatus.uploading }
    ("network timeout") (by decide)
  exact h.1.1

/-- C1 counterexample: the image-generation worker's transient-error path —
normal workflow, not the startup orphan reset — commits the back-edge
`generating → detected` (via `TokenRepository.increment_attempts`), so the
back-edge is not performed only by the startup orphan reset. -/
theorem C1_counterexample_worker_back_edge :
    ((imageWorkerCommits
        { token_id := 1, author_id := 1, status := TokenStatus.detected }
        (GenOutcome.transient ("Replicate network timeout"))).map Token.status) =
      [TokenStatus.generating, TokenStatus.detected] ∧
    forwardEdge TokenStatus.generating TokenStatus.detected = false := by
  decide

/-- C1 amended: the `Token.mark_*` methods move only along the allowed
forward edges (detected → generating → uploading → ready → revealed, with
failed reachable from any non-terminal state), raise
`InvalidStateTransition` from any other state, and never move a token out
of the terminal states revealed/failed; every status change committed by
the modelled workers stays within those forward edges plus the single
back-edge `generating → detected`; and that back-edge is performed both by
the startup orphan reset and by the image worker's transient-error retry
path. -/
theorem C1_state_machine_amended :
    (∀ t u : Token, t.mark_generating = Except.ok u →
        t.status = TokenStatus.detected ∧ u.status = TokenStatus.generating) ∧
    (∀ t : Token, t.status ≠ TokenStatus.detected →
        t.mark_generating = Except.error PyError.invalidStateTransition) ∧
    (∀ t u : Token, t.mark_uploading = Except.ok u →
        t.status = TokenStatus.generating ∧ u.status = TokenStatus.uploading) ∧
    (∀ t : Token, t.status ≠ TokenStatus.generating →
        t.mark_uploading = Except.error PyError.invalidStateTransition) ∧
    (∀ (t u : Token) (cid : String), t.mark_ready cid = Except.ok u →
        t.status = TokenStatus.uploading ∧ u.status = TokenStatus.ready) ∧
    (∀ (t : Token) (cid : String), t.status ≠ TokenStatus.uploading →
        t.mark_ready cid = Except.error PyError.invalidStateTransition) ∧
    (∀ (t u : Token) (txh : String), t.mark_revealed txh = Except.ok u →
        t.status = TokenStatus.ready ∧ u.status = TokenStatus.revealed) ∧
    (∀ (t : Token) (txh : String), t.status ≠ TokenStatus.ready →
        t.mark_revealed txh = Except.error PyError.invalidStateTransition) ∧
    (∀ t u : Token, t.mark_failed = Except.ok u →
        (t.status ≠ TokenStatus.revealed ∧ t.status ≠ TokenStatus.failed) ∧
        u.status = TokenStatus.failed) ∧
    (∀ t : Token, t.status = TokenStatus.revealed ∨ t.status = TokenStatus.failed →
        t.mark_generating = Except.error PyError.invalidStateTransition ∧
        t.mark_uploading = Except.error PyError.invalidStateTransition ∧
        (∀ cid, t.mark_ready cid = Except.error PyError.invalidStateTransition) ∧
        (∀ txh, t.mark_revealed txh = Except.error PyError.invalidStateTransition) ∧
        t.mark_failed = Except.error PyError.invalidStateTransition) ∧
    (∀ (t : Token) (o : GenOutcome), t.status = TokenStatus.detected →
        List.Chain' (fun a b => allowedStep a b = true)
          (t.status :: (imageWorkerCommits t o).map Token.status)) ∧
    (∀ (t : Token) (o : UploadOutcome), t.status = TokenStatus.uploading →
        allowedStep t.status (uploadWorkerCommit t o).status = true) ∧
    (∀ (t : Token) (txh : Option String), t.status = TokenStatus.ready →
        allowedStep t.status (repoMarkRevealed t txh).status = true) ∧
    (∀ t : Token, orphanReset t = t ∨
        (t.status = TokenStatus.generating ∧
         (orphanReset t).status = TokenStatus.detected)) ∧
    (∀ (t : Token) (msg : String), t.status = TokenStatus.detected →
        ((imageWorkerCommits t (GenOutcome.transient msg)).map Token.status) =
          [TokenStatus.generating, TokenStatus.detected]) := by
  refine ⟨?_, ?_, ?_, ?_, ?_, ?_, ?_, ?_, ?_, ?_, ?_, ?_, ?_, ?_, ?_⟩
  · intro t u hok
    unfold Token.mark_generating at hok
    split at hok
    · simp at hok
    · rename_i hst
      simp only [ne_eq, not_not] at hst
      simp only [Except.ok.injEq] at hok
      exact ⟨hst, by rw [← hok]⟩
  · intro t hst
    unfold Token.mark_generating
    simp [hst]
  · intro t u hok
    unfold Token.mark_uploading at hok
    split at hok
    · simp at hok
    · rename_i hst
      simp only [ne_eq, not_not] at hst
      simp only [Except.ok.injEq] at hok
      exact ⟨hst, by rw [← hok]⟩
  · intro t hst
    unfold Token.mark_uploading
    simp [hst]
  · intro t u cid hok
    unfold Token.mark_ready at hok
    split at hok
    · simp at hok
    · rename_i hst
      simp only [ne_eq, not_not] at hst
      split at hok
      · simp at hok
      · simp only [Except.ok.injEq] at hok
        exact ⟨hst, by rw [← hok]⟩
  · intro t cid hst
    unfold Token.mark_ready
    simp [hst]
  · intro t u txh hok
    unfold Token.mark_revealed at hok
    split at hok
    · simp at hok
    · rename_i hst
      simp only [ne_eq, not_not] at hst
      split at hok
      · simp at hok
      · simp only [Except.ok.injEq] at hok
        exact ⟨hst, by rw [← hok]⟩
  · intro t txh hst
    unfold Token.mark_revealed
    simp [hst]
  · intro t u hok
    unfold Token.mark_failed at hok
    split at hok
    · simp at hok
    · rename_i hst
      push_neg at hst
      simp only [Except.ok.injEq] at hok
      exact ⟨hst, by rw [← hok]⟩
  · intro t hterm
    have hd : t.status ≠ TokenStatus.detected := by
      rcases hterm with h | h <;> simp [h]
    have hg : t.status ≠ TokenStatus.generating := by
      rcases hterm with h | h <;> simp [h]
    have hu : t.status ≠ TokenStatus.uploading := by
      rcases hterm with h | h <;> simp [h]
    have hr : t.status ≠ TokenStatus.ready := by
      rcases hterm with h | h <;> simp [h]
    refine ⟨by unfold Token.mark_generating; simp [hd],
            by unfold Token.mark_uploading; simp [hg],
            fun cid => by unfold Token.mark_ready; simp [hu],
            fun txh => by unfold Token.mark_revealed; simp [hr],
            by unfold Token.mark_failed; simp [hterm]⟩
  · intro t o h
    cases o with
    | success url =>
        by_cases hurl : url = ""
        · simp [imageWorkerCommits, repoUpdateImageUrl, repoMarkFailed, hurl, h,
            allowedStep, realizedEdge, forwardEdge]
        · simp [imageWorkerCommits, repoUpdateImageUrl, hurl, h,
            allowedStep, realizedEdge, forwardEdge]
    | transient msg =>
        simp [imageWorkerCommits, repoIncrementAttempts, h,
          allowedStep, realizedEdge, forwardEdge]
    | contentPolicy msg fb =>
        cases fb with
        | ok url =>
            by_cases hurl : url = ""
            · simp [imageWorkerCommits, repoUpdateImageUrl, repoMarkFailed, hurl, h,
                allowedStep, realizedEdge, forwardEdge]
            · simp [imageWorkerCommits, repoUpdateImageUrl, hurl, h,
                allowedStep, realizedEdge, forwardEdge]
        | fail fmsg =>
            simp [imageWorkerCommits, repoMarkFailed, h,
              allowedStep, realizedEdge, forwardEdge]
    | permanent msg =>
        simp [imageWorkerCommits, repoMarkFailed, h,
          allowedStep, realizedEdge, forwardEdge]
    | promptInvalid msg =>
        simp [imageWorkerCommits, repoMarkFailed, h,
          allowedStep, realizedEdge, forwardEdge]
  · intro t o h
    cases o with
    | success ic mc =>
        simp only [uploadWorkerCommit, repoUpdateIpfsCids]
        by_cases hc : ic = "" ∨ mc = ""
        · simp [hc, h, allowedStep]
        · simp [hc, h, allowedStep, realizedEdge, forwardEdge]
    | transient m => simp [uploadWorkerCommit, h, allowedStep]
    | permanent m => simp [uploadWorkerCommit, h, allowedStep]
    | missingData m => simp [uploadWorkerCommit, h, allowedStep]
  · intro t txh h
    cases txh with
    | none => simp [repoMarkRevealed, h, allowedStep, realizedEdge, forwardEdge]
    | some s =>
        by_cases hs : s = ""
        · simp [repoMarkRevealed, hs, h, allowedStep, realizedEdge, forwardEdge]
        · simp [repoMarkRevealed, hs, h, allowedStep, realizedEdge, forwardEdge]
  · intro t
    by_cases h : t.status = TokenStatus.generating
    · exact Or.inr ⟨h, by simp [orphanReset, h]⟩
    · exact Or.inl (by simp [orphanReset, h])
  · intro t msg h
    simp [imageWorkerCommits, repoIncrementAttempts, h]

/-- C1 witness: the amended machine evaluated on concrete tokens — a
successful generation run from `detected` and the terminal-state guards on
a `revealed` token. -/
theorem C1_state_machine_amended_witness :
    (Token.mark_failed
        { token_id := 3, author_id := 1, status := TokenStatus.revealed } =
      Except.error PyError.invalidStateTransition) ∧
    List.Chain' (fun a b => allowedStep a b = true)
      (TokenStatus.detected ::
        ((imageWorkerCommits
            { token_id := 4, author_id := 1, status := TokenStatus.detected }
            (GenOutcome.success ("https://cdn.example/img.png"))).map Token.status)) := by
  constructor
  · exact (C1_state_machine_amended.2.2.2.2.2.2.2.2.2.1
      { token_id := 3, author_id := 1, status := TokenStatus.revealed }
      (Or.inl (by decide))).2.2.2.2
  · exact C1_state_machine_amended.2.2.2.2.2.2.2.2.2.2.1
      { token_id := 4, author_id := 1, status := TokenStatus.detected }
      (GenOutcome.success ("https://cdn.example/img.png")) (by decide)

/-- C4: the webhook decoder does read `startTokenId` from `topics[3]` as a
full uint256, `quantity` from data bytes [0,32) and `totalPaid` from data
bytes [32,64); but the replay decoder (`_decode_batch_minted_event` in
`event_recovery.py`) reads the start id from the data section instead —
on the real event layout (64-byte data) it raises `ValueError` (its
`totalPaid` slice is empty), and on its assumed 96-byte layout it returns
the data-section value, ignoring `topics[3]` entirely.  This contradicts
the repository's own regression test
(`test_decode_batch_minted_event_structure`). -/
theorem C4_recovery_decoder_reads_start_from_data :
    decodeBatchMintedRecovery criticalTestRecoveryLog =
      Except.error PyError.valueError ∧
    (decodeBatchMintedRecovery assumedLayoutRecoveryLog).map
        (fun e => (e.start_token_id, e.quantity, e.total_paid)) =
      Except.ok (7, 3, 1000000000000000000) ∧
    (decode_batch_minted_event criticalTestWebhookLog 100).map
        (fun e => (e.start_token_id, e.quantity, e.total_paid)) =
      Except.ok (5, 3, 1000000000000000000) ∧
    (decode_batch_minted_event criticalTestWebhookLog 100).map
        (fun e => (e.minter, e.prompt_author)) =
      Except.ok ("0x1234567890123456789012345678901234567890",
                 "0x742D35CC6634c0532925A3b844BC9E7595F0BEb0") := by
  refine ⟨by decide, by decide, by decide, by decide⟩

/-- C5: the signature check recomputes HMAC-SHA256 of the exact raw body
under the shared secret and succeeds exactly when the lowercased hex
digests agree (case-insensitive comparison); a request with a missing
`X-Alchemy-Signature` header, and likewise one whose signature fails the
comparison, is rejected with 401 unauthorised before any parsing
(the result does not depend on the parser) and leaves the store
unchanged.  (Constant-timeness of the comparison primitive
`hmac.compare_digest` is a timing property outside this embedding.) -/
theorem C5_webhook_signature_validation :
    (∀ (raw : List Nat) (sig key : String),
        validate_alchemy_signature raw sig key = true ↔
          strToLower (bytesToHex (hmacSha256 (utf8Bytes key) raw)) = strToLower sig) ∧
    (∀ (settings : Settings) (key : String)
        (parse : List Nat → Option WebhookPayload) (st : Store) (body : List Nat),
        handleWebhookRequest settings key parse st
          { raw_body := body, x_alchemy_signature := none } =
          (WebhookResponse.unauthorized, st)) ∧
    (∀ (settings : Settings) (key : String)
        (parse : List Nat → Option WebhookPayload) (st : Store)
        (body : List Nat) (sig : String),
        validate_alchemy_signature body sig key = false →
        handleWebhookRequest settings key parse st
          { raw_body := body, x_alchemy_signature := some sig } =
          (WebhookResponse.unauthorized, st)) := by
  refine ⟨?_, ?_, ?_⟩
  · intro raw sig key
    simp [validate_alchemy_signature]
  · intro settings key parse st body
    rfl
  · intro settings key parse st body sig hval
    by_cases hsig : sig = ""
    · simp [handleWebhookRequest, validate_webhook_signature, hsig]
    · simp [handleWebhookRequest, validate_webhook_signature, hsig, hval]

/-- C5 witness: a concrete request with a wrong signature is rejected with
the store untouched. -/
theorem C5_webhook_signature_validation_witness :
    handleWebhookRequest
        { glisk_nft_contract_address := "0xc0", glisk_default_author_wallet := "0xd0" }
        ("secret") (fun _ => none)
        { authors := [], mint_events := [], tokens := [] }
        { raw_body := [123, 125], x_alchemy_signature := some ("deadbeef") } =
      (WebhookResponse.unauthorized,
        ({ authors := [], mint_events := [], tokens := [] } : Store)) := by
  exact C5_webhook_signature_validation.2.2
    { glisk_nft_contract_address := "0xc0", glisk_default_author_wallet := "0xd0" }
    ("secret") (fun _ => none)
    { authors := [], mint_events := [], tokens := [] }
    [123, 125] ("deadbeef") (by decide)

/-- A pattern that contains a colon never occurs inside a colon-free
string, so the replace loop leaves it unchanged. -/
theorem listReplaceEmpty_of_no_colon (p : List Char) (hp : (':' : Char) ∈ p) :
    ∀ (fuel : Nat) (rest : List Char), (∀ c ∈ rest, c ≠ ':') →
      listReplaceEmpty fuel rest p = rest := by
  intro fuel
  induction fuel with
  | zero => intro rest _; rfl
  | succ n ih =>
      intro rest hno
      cases rest with
      | nil => rfl
      | cons c r =>
          have hcond : ¬ ((c :: r).take p.length = p ∧ p ≠ []) := by
            rintro ⟨htake, -⟩
            have : (':' : Char) ∈ c :: r := by
              rw [← htake] at hp
              exact List.mem_of_mem_take hp
            exact hno ':' this rfl
          simp only [listReplaceEmpty, if_neg hcond]
          rw [ih r (fun x hx => hno x (List.mem_cons_of_mem c hx))]

/-- One replace-loop step over an exact prefix occurrence consumes it. -/
theorem listReplaceEmpty_cons_prefix (p l : List Char) (fuel : Nat) (hp : p ≠ []) :
    listReplaceEmpty (fuel + 1) (p ++ l) p = listReplaceEmpty fuel l p := by
  cases p with
  | nil => exact absurd rfl hp
  | cons a p' =>
      show listReplaceEmpty (fuel + 1) (a :: (p' ++ l)) (a :: p') = _
      simp only [listReplaceEmpty]
      rw [if_pos ⟨by
            show (a :: (p' ++ l)).take (a :: p').length = a :: p'
            rw [show a :: (p' ++ l) = (a :: p') ++ l from rfl]
            exact List.take_left (a :: p') l, by simp⟩]
      rw [show a :: (p' ++ l) = (a :: p') ++ l from rfl, List.drop_left]

/-- `"ipfs://…".replace("ipfs://", "")` extracts the content id whenever
the id itself is colon-free (every real CID is). -/
theorem strReplaceEmpty_ipfs (cid : String) (hc : ∀ c ∈ cid.data, c ≠ ':') :
    strReplaceEmpty ("ipfs://" ++ cid) ("ipfs://") = cid := by
  rcases cid with ⟨l⟩
  have hdata : (("ipfs://" : String) ++ ⟨l⟩).data = ("ipfs://" : String).data ++ l :=
    String.data_append _ _
  unfold strReplaceEmpty
  rw [hdata]
  have hlen : (("ipfs://" : String).data ++ l).length = (l.length + 6) + 1 := by
    rw [List.length_append, show ("ipfs://" : String).data.length = 7 from rfl]
    omega
  rw [hlen, listReplaceEmpty_cons_prefix _ _ _ (by decide),
      listReplaceEmpty_of_no_colon _ (by decide) _ _ (by simpa using hc)]

/-- A string always starts with its own prefix. -/
theorem strHasPrefix_append (p s : String) : strHasPrefix (p ++ s) p = true := by
  simp [strHasPrefix, String.data_append, List.take_left]

/-- C7: during gap repair, a missing id that is revealed on-chain is
inserted directly with status `revealed`, a null reveal tx hash, and
`metadata_cid` equal to the content id of an `ipfs://` token URI (null
when the URI does not start with `ipfs://`); an unrevealed id is inserted
with status `detected`. -/
theorem C7_gap_repair_revealed_insertion :
    ∀ (chain : ChainView) (author : Author) (id : Nat),
      (∀ cid : String, chain.isRevealed id = true →
          chain.tokenURI id = "ipfs://" ++ cid → (∀ c ∈ cid.data, c ≠ ':') →
          (buildRecoveredToken chain author id).status = TokenStatus.revealed ∧
          (buildRecoveredToken chain author id).metadata_cid = some cid ∧
          (buildRecoveredToken chain author id).reveal_tx_hash = none ∧
          (buildRecoveredToken chain author id).token_id = id) ∧
      (chain.isRevealed id = true →
          strHasPrefix (chain.tokenURI id) ("ipfs://") = false →
          (buildRecoveredToken chain author id).status = TokenStatus.revealed ∧
          (buildRecoveredToken chain author id).metadata_cid = none ∧
          (buildRecoveredToken chain author id).reveal_tx_hash = none) ∧
      (chain.isRevealed id = false →
          (buildRecoveredToken chain author id).status = TokenStatus.detected ∧
          (buildRecoveredToken chain author id).reveal_tx_hash = none ∧
          (buildRecoveredToken chain author id).token_id = id) := by
  intro chain author id
  refine ⟨?_, ?_, ?_⟩
  · intro cid hrev huri hc
    have hpre : strHasPrefix (chain.tokenURI id) ("ipfs://") = true := by
      rw [huri]; exact strHasPrefix_append _ _
    unfold buildRecoveredToken
    rw [hrev, if_pos rfl, huri]
    rw [huri] at hpre
    simp only [hpre, if_pos rfl, strReplaceEmpty_ipfs cid hc]
    simp
  · intro hrev hpre
    unfold buildRecoveredToken
    rw [hrev, if_pos rfl]
    simp only [hpre]
    simp
  · intro hrev
    unfold buildRecoveredToken
    rw [hrev]
    simp

/-- C7 witness: a concrete chain view with token 4 revealed under
`ipfs://QmXyZ` and token 5 unrevealed. -/
theorem C7_gap_repair_revealed_insertion_witness :
    (buildRecoveredToken
        { tokenPromptAuthor := fun _ => "0xaa",
          isRevealed := fun i => i == 4,
          tokenURI := fun _ => "ipfs://QmXyZ" }
        { id := 1, wallet_address := "0xaa" } 4).metadata_cid = some ("QmXyZ") ∧
    (buildRecoveredToken
        { tokenPromptAuthor := fun _ => "0xaa",
          isRevealed := fun i => i == 4,
          tokenURI := fun _ => "ipfs://QmXyZ" }
        { id := 1, wallet_address := "0xaa" } 5).status = TokenStatus.detected := by
  constructor
  · exact ((C7_gap_repair_revealed_insertion
      { tokenPromptAuthor := fun _ => "0xaa",
        isRevealed := fun i => i == 4,
        tokenURI := fun _ => "ipfs://QmXyZ" }
      { id := 1, wallet_address := "0xaa" } 4).1 ("QmXyZ")
      (by decide) (by decide) (by decide)).2.1
  · exact ((C7_gap_repair_revealed_insertion
      { tokenPromptAuthor := fun _ => "0xaa",
        isRevealed := fun i => i == 4,
        tokenURI := fun _ => "ipfs://QmXyZ" }
      { id := 1, wallet_address := "0xaa" } 5).2.2 (by decide)).1

/-- The token id of a recovered row is the recovered id, on both branches. -/
theorem buildRecoveredToken_token_id (chain : ChainView) (a : Author) (id : Nat) :
    (buildRecoveredToken chain a id).token_id = id := by
  unfold buildRecoveredToken
  split <;> rfl

/-- Membership in the computed missing set: exactly the ids of
`[1, max_token_id - 1]` with no token row. -/
theorem mem_get_missing_token_ids (st : Store) (N id : Nat) :
    id ∈ get_missing_token_ids st N none ↔
      (1 ≤ id ∧ id < N ∧ ∀ t ∈ st.tokens, t.token_id ≠ id) := by
  unfold get_missing_token_ids
  simp only [List.mem_filter, List.mem_map, List.mem_range, Bool.not_eq_true',
    List.any_eq_false, beq_iff_eq, ne_eq]
  constructor
  · rintro ⟨⟨i, hi, rfl⟩, hno⟩
    exact ⟨by omega, by omega, hno⟩
  · rintro ⟨h1, hN, hno⟩
    exact ⟨⟨id - 1, by omega, by omega⟩, hno⟩

/-- The missing set is returned in strictly ascending order. -/
theorem get_missing_token_ids_sorted (st : Store) (N : Nat) (limit : Option Nat) :
    List.Sorted (· < ·) (get_missing_token_ids st N limit) := by
  unfold get_missing_token_ids
  have hser : List.Pairwise (· < ·)
      ((List.range (N - 1)).map (fun i => i + 1)) := by
    refine List.Pairwise.map _ ?_ (List.pairwise_lt_range (N - 1))
    intro a b hab
    omega
  have hfil := List.Pairwise.filter
    (fun i => ! st.tokens.any (fun t => t.token_id == i)) hser
  cases limit with
  | none => exact hfil
  | some l => exact List.Pairwise.sublist (List.take_sublist _ _) hfil

/-- With no races and no per-id errors, the recovery fold appends exactly
one row per missing id, in order. -/
theorem recover_fold_no_race (chain : ChainView) (settings : Settings)
    (defA : Author) :
    ∀ (ids : List Nat) (st : Store) (acc2 : Nat × Nat × List Nat),
      getByWallet st settings.glisk_default_author_wallet = some defA →
      (∀ id ∈ ids, ∀ t ∈ st.tokens, t.token_id ≠ id) →
      ids.Nodup →
      ((ids.foldl (recoverStep chain (fun _ => false) (fun _ => none) settings)
          (st, acc2)).1.tokens.map Token.token_id)
        = st.tokens.map Token.token_id ++ ids := by
  intro ids
  induction ids with
  | nil => intro st acc2 _ _ _; simp
  | cons id rest ih =>
      intro st acc2 hdef habs hnodup
      have hany : st.tokens.any (fun t => t.token_id == id) = false := by
        rw [List.any_eq_false]
        intro t ht
        simp [habs id (List.mem_cons_self id rest) t ht]
      have hres : ∃ a : Author,
          recoverStep chain (fun _ => false) (fun _ => none) settings (st, acc2) id
            = ({ st with tokens := st.tokens ++ [buildRecoveredToken chain a id] },
               acc2.1 + 1, acc2.2.1, acc2.2.2) := by
        unfold recoverStep
        cases hA : getByWallet st (chain.tokenPromptAuthor id) with
        | some a => exact ⟨a, by simp [hA, hany]⟩
        | none => exact ⟨defA, by simp [hA, hdef, hany]⟩
      obtain ⟨a, ha⟩ := hres
      rw [List.foldl_cons, ha]
      have hdef' : getByWallet
          { st with tokens := st.tokens ++ [buildRecoveredToken chain a id] }
          settings.glisk_default_author_wallet = some defA := hdef
      have habs' : ∀ id' ∈ rest,
          ∀ t ∈ ({ st with tokens := st.tokens ++ [buildRecoveredToken chain a id] }
            : Store).tokens, t.token_id ≠ id' := by
        intro id' hid' t ht
        rcases List.mem_append.mp ht with h | h
        · exact habs id' (List.mem_cons_of_mem id hid') t h
        · have : t = buildRecoveredToken chain a id := by simpa using h
          rw [this, buildRecoveredToken_token_id]
          have : id ∉ rest := (List.nodup_cons.mp hnodup).1
          intro heq
          exact this (heq ▸ hid')
      rw [ih _ _ hdef' habs' (List.nodup_cons.mp hnodup).2]
      simp [buildRecoveredToken_token_id]

/-- C6: the missing set is `{1..nextTokenId-1}` minus the present ids, in
ascending order (the single generate_series LEFT JOIN query); after gap
repair with no limit and no per-id errors, every id of
`[1, nextTokenId-1]` has exactly one token row; and a unique-key violation
caused by a webhook racing ahead is counted as one skipped duplicate while
the store keeps exactly the raced row and recovery continues. -/
theorem C6_gap_repair_completeness (chain : ChainView) (settings : Settings)
    (st0 : Store) (defA : Author) (N : Nat)
    (hdef : getByWallet st0 settings.glisk_default_author_wallet = some defA)
    (huniq : (st0.tokens.map Token.token_id).Nodup) :
    (∀ id, id ∈ get_missing_token_ids st0 N none ↔
        (1 ≤ id ∧ id < N ∧ ∀ t ∈ st0.tokens, t.token_id ≠ id)) ∧
    List.Sorted (· < ·) (get_missing_token_ids st0 N none) ∧
    (∀ id, 1 ≤ id → id < N →
        ((recover_missing_tokens chain (fun _ => false) (fun _ => none) settings
            st0 N none).1.tokens.map Token.token_id).count id = 1) ∧
    (∀ (st : Store) (acc2 : Nat × Nat × List Nat) (id : Nat) (t : Token)
        (a : Author), t.token_id = id →
        getByWallet st settings.glisk_default_author_wallet = some a →
        recoverStep chain (fun _ => false)
            (fun j => if j = id then some t else none) settings (st, acc2) id =
          ({ st with tokens := st.tokens ++ [t] },
           acc2.1, acc2.2.1 + 1, acc2.2.2)) := by
  refine ⟨mem_get_missing_token_ids st0 N, get_missing_token_ids_sorted st0 N none,
    ?_, ?_⟩
  · intro id h1 hN
    have hsorted := get_missing_token_ids_sorted st0 N (none : Option Nat)
    have hnodup : (get_missing_token_ids st0 N none).Nodup :=
      List.Pairwise.imp (fun h => Nat.ne_of_lt h) hsorted
    have habs : ∀ i ∈ get_missing_token_ids st0 N none,
        ∀ t ∈ st0.tokens, t.token_id ≠ i := by
      intro i hi
      exact ((mem_get_missing_token_ids st0 N i).mp hi).2.2
    have hfold := recover_fold_no_race chain settings defA
      (get_missing_token_ids st0 N none) st0 (0, 0, []) hdef habs hnodup
    unfold recover_missing_tokens
    rw [hfold, List.count_append]
    by_cases hm : id ∈ get_missing_token_ids st0 N none
    · have h0 : (st0.tokens.map Token.token_id).count id = 0 := by
        apply List.count_eq_zero_of_not_mem
        intro hmem
        obtain ⟨t, ht, heq⟩ := List.mem_map.mp hmem
        exact ((mem_get_missing_token_ids st0 N id).mp hm).2.2 t ht heq
      rw [h0, List.count_eq_one_of_mem hnodup hm]
    · have hex : ∃ t ∈ st0.tokens, t.token_id = id := by
        by_contra hno
        push_neg at hno
        exact hm ((mem_get_missing_token_ids st0 N id).mpr ⟨h1, hN, hno⟩)
      obtain ⟨t, ht, heq⟩ := hex
      have hmem : id ∈ st0.tokens.map Token.token_id :=
        List.mem_map.mpr ⟨t, ht, heq⟩
      have hle := (List.nodup_iff_count_le_one.mp huniq) id
      have hpos : 0 < (st0.tokens.map Token.token_id).count id :=
        List.count_pos_iff.mpr hmem
      have hcnt0 : (get_missing_token_ids st0 N none).count id = 0 :=
        List.count_eq_zero_of_not_mem hm
      omega
  · intro st acc2 id t a ht hdefa
    unfold recoverStep
    simp only [if_pos rfl, Bool.false_eq_true, if_false]
    have hany : (st.tokens ++ [t]).any (fun u => u.token_id == id) = true := by
      rw [List.any_append]
      simp [ht]
    have hdefa' : getByWallet { st with tokens := st.tokens ++ [t] }
        settings.glisk_default_author_wallet = some a := hdefa
    cases hA : getByWallet { st with tokens := st.tokens ++ [t] }
        (chain.tokenPromptAuthor id) with
    | some b => simp [hA, hany]
    | none => simp [hA, hdefa', hany]

/-- C6 witness: the spec's seeding scenario — store `{1,2,3,6,7,8}`,
`nextTokenId = 9` — repaired to exactly one row for id 4. -/
theorem C6_gap_repair_completeness_witness :
    ((recover_missing_tokens
        { tokenPromptAuthor := fun _ => "0xd0",
          isRevealed := fun i => i == 4,
          tokenURI := fun _ => "ipfs://QmWitness" }
        (fun _ => false) (fun _ => none)
        { glisk_nft_contract_address := "0xc0", glisk_default_author_wallet := "0xd0" }
        { authors := [{ id := 1, wallet_address := "0xd0" }],
          mint_events := [],
          tokens := [{ token_id := 1, author_id := 1, status := TokenStatus.detected },
                     { token_id := 2, author_id := 1, status := TokenStatus.detected },
                     { token_id := 3, author_id := 1, status := TokenStatus.detected },
                     { token_id := 6, author_id := 1, status := TokenStatus.ready },
                     { token_id := 7, author_id := 1, status := TokenStatus.ready },
                     { token_id := 8, author_id := 1, status := TokenStatus.ready }] }
        9 none).1.tokens.map Token.token_id).count 4 = 1 := by
  exact (C6_gap_repair_completeness
    { tokenPromptAuthor := fun _ => "0xd0",
      isRevealed := fun i => i == 4,
      tokenURI := fun _ => "ipfs://QmWitness" }
    { glisk_nft_contract_address := "0xc0", glisk_default_author_wallet := "0xd0" }
    { authors := [{ id := 1, wallet_address := "0xd0" }],
      mint_events := [],
      tokens := [{ token_id := 1, author_id := 1, status := TokenStatus.detected },
                 { token_id := 2, author_id := 1, status := TokenStatus.detected },
                 { token_id := 3, author_id := 1, status := TokenStatus.detected },
                 { token_id := 6, author_id := 1, status := TokenStatus.ready },
                 { token_id := 7, author_id := 1, status := TokenStatus.ready },
                 { token_id := 8, author_id := 1, status := TokenStatus.ready }] }
    { id := 1, wallet_address := "0xd0" } 9 (by decide) (by decide)).2.2.1
    4 (by decide) (by decide)

/-- The webhook per-log loop only ever appends mint events. -/
theorem processLogs_mint_events_mono (settings : Settings) (bn : Nat) :
    ∀ (logs : List WebhookLog) (st : Store) (pr : List (Nat × List Nat)),
      ∃ l, (processLogs settings bn logs st pr).2.mint_events = st.mint_events ++ l := by
  intro logs
  induction logs with
  | nil => intro st pr; exact ⟨[], by simp [processLogs]⟩
  | cons log rest ih =>
      intro st pr
      unfold processLogs
      dsimp only
      split
      · exact ih st pr
      split
      · exact ih st pr
      split
      · exact ih st pr
      split
      · exact ⟨[], by simp⟩
      rename_i ev heq
      split
      · exact ⟨[], by simp⟩
      split
      · rename_i author hauth
        obtain ⟨l, hl⟩ := ih (insertMintRecords st ev author).1
          (pr ++ [((insertMintRecords st ev author).2.length,
                   (insertMintRecords st ev author).2)])
        refine ⟨({ tx_hash := ev.tx_hash, log_index := ev.log_index,
                   block_number := ev.block_number, token_id := ev.start_token_id,
                   author_wallet := ev.prompt_author,
                   recipient := ev.minter } : MintEvent) :: l, ?_⟩
        rw [hl]
        simp [insertMintRecords]
      · exact ⟨[], by simp⟩

/-- The webhook per-log loop preserves uniqueness of
`(tx_hash, log_index)` keys: an insert happens only after the duplicate
check found the key absent. -/
theorem processLogs_mintKeys_nodup (settings : Settings) (bn : Nat) :
    ∀ (logs : List WebhookLog) (st : Store) (pr : List (Nat × List Nat)),
      (mintKeys st).Nodup →
      (mintKeys (processLogs settings bn logs st pr).2).Nodup := by
  intro logs
  induction logs with
  | nil => intro st pr h; simpa [processLogs] using h
  | cons log rest ih =>
      intro st pr h
      unfold processLogs
      dsimp only
      split
      · exact ih st pr h
      split
      · exact ih st pr h
      split
      · exact ih st pr h
      split
      · simpa using h
      rename_i ev heq
      split
      · simpa using h
      rename_i hdup
      split
      · rename_i author hauth
        apply ih
        have hkeys : mintKeys (insertMintRecords st ev author).1 =
            mintKeys st ++ [(ev.tx_hash, ev.log_index)] := by
          simp [mintKeys, insertMintRecords]
        rw [hkeys, List.nodup_append]
        refine ⟨h, List.nodup_singleton _, ?_⟩
        intro k hk hk1
        simp only [List.mem_singleton] at hk1
        subst hk1
        obtain ⟨e, he, hek⟩ := List.mem_map.mp hk
        have : mintEventExists st ev.tx_hash ev.log_index = true := by
          rw [mintEventExists, List.any_eq_true]
          refine ⟨e, he, ?_⟩
          have h1 : e.tx_hash = ev.tx_hash := congrArg Prod.fst hek
          have h2 : e.log_index = ev.log_index := congrArg Prod.snd hek
          simp [h1, h2]
        simp [this] at hdup
      · simpa using h

/-- A key present in the store stays present for the duplicate check after
any extension. -/
theorem mintEventExists_extend (st st1 : Store) (tx : String) (idx : Nat)
    (l : List MintEvent) (hext : st1.mint_events = st.mint_events ++ l)
    (h : mintEventExists st tx idx = true) :
    mintEventExists st1 tx idx = true := by
  rw [mintEventExists, List.any_eq_true] at h ⊢
  obtain ⟨e, he, hcond⟩ := h
  exact ⟨e, by rw [hext]; exact List.mem_append_left l he, hcond⟩

/-- If a first run over the logs (with an empty accumulator) succeeded,
a second run over the same logs against the resulting store stops at the
first previously-processed log with a `duplicate` response and no store
change. -/
theorem processLogs_second_run (settings : Settings) (bn : Nat) :
    ∀ (logs : List WebhookLog) (st : Store) (evs : List (Nat × List Nat))
      (st1 : Store),
      processLogs settings bn logs st [] = (WebhookResponse.success evs, st1) →
      ∀ pr2, ∃ tx idx,
        processLogs settings bn logs st1 pr2 =
          (WebhookResponse.duplicate tx idx, st1) := by
  intro logs
  induction logs with
  | nil =>
      intro st evs st1 h pr2
      simp [processLogs] at h
  | cons log rest ih =>
      intro st evs st1 h pr2
      rw [processLogs] at h
      rw [processLogs]
      dsimp only at h ⊢
      split at h
      · rename_i hskip
        rw [if_pos hskip]
        exact ih st evs st1 h pr2
      rename_i hskip
      rw [if_neg hskip]
      split at h
      · rename_i htx
        rw [if_pos htx]
        exact ih st evs st1 h pr2
      rename_i htx
      rw [if_neg htx]
      split at h
      · rename_i hrem
        rw [if_pos hrem]
        exact ih st evs st1 h pr2
      rename_i hrem
      rw [if_neg hrem]
      split at h
      · simp at h
      rename_i ev heq
      split at h
      · simp at h
      rename_i hdup
      split at h
      · rename_i author hauth
        obtain ⟨l, hl⟩ := processLogs_mint_events_mono settings bn rest
          (insertMintRecords st ev author).1
          ([] ++ [((insertMintRecords st ev author).2.length,
                   (insertMintRecords st ev author).2)])
        have hst1 : st1.mint_events = (insertMintRecords st ev author).1.mint_events ++ l := by
          rw [← hl, h]
        have hin : mintEventExists (insertMintRecords st ev author).1
            ev.tx_hash ev.log_index = true := by
          rw [mintEventExists, List.any_eq_true]
          refine ⟨{ tx_hash := ev.tx_hash, log_index := ev.log_index,
                    block_number := ev.block_number, token_id := ev.start_token_id,
                    author_wallet := ev.prompt_author, recipient := ev.minter }, ?_, by simp⟩
          simp [insertMintRecords]
        have hex : mintEventExists st1 ev.tx_hash ev.log_index = true :=
          mintEventExists_extend _ _ _ _ l hst1 hin
        refine ⟨ev.tx_hash, ev.log_index, ?_⟩
        rw [if_pos hex]
      · simp at h

/-- The replay inner loop (one event, indexes with no pre-existing rows)
appends one `(MintEvent, Token)` pair per index. -/
theorem replay_inner_fold (ev : RecoveredEvent) (author : Author) :
    ∀ (idxs : List Nat) (st : Store) (s2 : Nat × Nat),
      (∀ i ∈ idxs, ∀ t ∈ st.tokens, t.token_id ≠ ev.start_token_id + i) →
      idxs.Nodup →
      (idxs.foldl (fun acc2 i =>
          match storeRecoveredPair acc2.1 ev author (ev.start_token_id + i) with
          | Except.ok st3 => (st3, acc2.2.1 + 1, acc2.2.2)
          | Except.error _ => (acc2.1, acc2.2.1, acc2.2.2 + 1)) (st, s2)).1
        = { st with
            mint_events := st.mint_events ++ idxs.map (fun i =>
              ({ tx_hash := ev.tx_hash, log_index := ev.log_index,
                 block_number := ev.block_number,
                 token_id := ev.start_token_id + i,
                 author_wallet := ev.author, recipient := ev.minter } : MintEvent)),
            tokens := st.tokens ++ idxs.map (fun i =>
              ({ token_id := ev.start_token_id + i, author_id := author.id,
                 status := TokenStatus.detected } : Token)) } := by
  intro idxs
  induction idxs with
  | nil => intro st s2 _ _; simp
  | cons i idxs ih =>
      intro st s2 habs hnodup
      have hany : st.tokens.any (fun t => t.token_id == ev.start_token_id + i) = false := by
        rw [List.any_eq_false]
        intro t ht
        simp [habs i (List.mem_cons_self i idxs) t ht]
      rw [List.foldl_cons]
      have hpair : storeRecoveredPair st ev author (ev.start_token_id + i) =
          Except.ok { st with
            mint_events := st.mint_events ++
              [{ tx_hash := ev.tx_hash, log_index := ev.log_index,
                 block_number := ev.block_number,
                 token_id := ev.start_token_id + i,
                 author_wallet := ev.author, recipient := ev.minter }],
            tokens := st.tokens ++
              [{ token_id := ev.start_token_id + i, author_id := author.id,
                 status := TokenStatus.detected }] } := by
        unfold storeRecoveredPair
        rw [if_neg (by simp [hany])]
      rw [hpair]
      have habs' : ∀ i' ∈ idxs,
          ∀ t ∈ (st.tokens ++
            [({ token_id := ev.start_token_id + i, author_id := author.id,
                status := TokenStatus.detected } : Token)]),
          t.token_id ≠ ev.start_token_id + i' := by
        intro i' hi' t ht
        rcases List.mem_append.mp ht with hmem | hmem
        · exact habs i' (List.mem_cons_of_mem i hi') t hmem
        · have ht' : t =
              ({ token_id := ev.start_token_id + i, author_id := author.id,
                 status := TokenStatus.detected } : Token) := by simpa using hmem
          rw [ht']
          show ev.start_token_id + i ≠ ev.start_token_id + i'
          have hne : i ≠ i' := fun hh => (List.nodup_cons.mp hnodup).1 (hh ▸ hi')
          omega
      rw [ih _ _ habs' (List.nodup_cons.mp hnodup).2]
      simp

/-- C2 counterexample: the log-replay path stores one `MintEvent` per
token of a batch, so replaying one `BatchMinted` log with `quantity = 2`
leaves two rows with the identical `(tx_hash, log_index)` pair — the
store-wide at-most-one invariant does not hold. -/
theorem C2_counterexample_replay_duplicate_keys :
    mintKeys (store_recovered_events [cReplayEvent2] cStore0 cSettings).1 =
      [("0xdup", 0), ("0xdup", 0)] ∧
    ¬ (([("0xdup", 0), ("0xdup", 0)] : List (String × Nat)).Nodup) := by
  exact ⟨by decide, by decide⟩

/-- C2 amended: along the webhook path the at-most-one invariant holds —
processing any payload preserves uniqueness of `(tx_hash, log_index)`
keys — and re-delivering a payload whose first delivery succeeded yields a
response with status `duplicate` and leaves the store exactly as it was
(no new `MintEvent` or `Token` rows).  (The log-replay path can still
create several rows with one key, per the counterexample.) -/
theorem C2_amended_webhook_at_most_once (settings : Settings) (st : Store)
    (p : WebhookPayload) (hnodup : (mintKeys st).Nodup) :
    (mintKeys (receive_alchemy_webhook settings st p).2).Nodup ∧
    (∀ evs st1,
        receive_alchemy_webhook settings st p = (WebhookResponse.success evs, st1) →
        ∃ tx idx, receive_alchemy_webhook settings st1 p =
          (WebhookResponse.duplicate tx idx, st1)) := by
  unfold receive_alchemy_webhook
  cases hbn : p.blockNumber with
  | none =>
      constructor
      · simpa using hnodup
      · intro evs st1 h
        simp at h
  | some bn =>
      dsimp only
      by_cases hm : (p.logs.filter (fun l =>
          strToLower l.accountAddress ==
            strToLower settings.glisk_nft_contract_address)) = []
      · simp only [if_pos hm]
        constructor
        · simpa using hnodup
        · intro evs st1 h
          simp at h
      · simp only [if_neg hm]
        constructor
        · exact processLogs_mintKeys_nodup settings bn _ st [] hnodup
        · intro evs st1 h
          exact processLogs_second_run settings bn _ st evs st1 h []

/-- C2 witness: the fixture payload delivered twice — the second delivery
returns `duplicate` and the store after it is unchanged. -/
theorem C2_amended_webhook_at_most_once_witness :
    ∃ tx idx,
      receive_alchemy_webhook cSettings
        (receive_alchemy_webhook cSettings cStore0 cPayload).2 cPayload =
      (WebhookResponse.duplicate tx idx,
       (receive_alchemy_webhook cSettings cStore0 cPayload).2) := by
  exact (C2_amended_webhook_at_most_once cSettings cStore0 cPayload (by decide)).2
    [(1, [1])] (receive_alchemy_webhook cSettings cStore0 cPayload).2 (by decide)

/-- C3 counterexample: replaying one `BatchMinted` log with `quantity = 2`
inserts two `MintEvent` rows, not exactly one. -/
theorem C3_counterexample_replay_not_one_mint_event :
    (store_recovered_events [cReplayEvent2] cStore0 cSettings).1.mint_events.length = 2 ∧
    (2 : Nat) ≠ 1 := by
  exact ⟨by decide, by decide⟩

/-- C3 amended: the webhook path persists, atomically per log, exactly one
`MintEvent` plus `quantity` `Token` rows with ids
`[startTokenId, startTokenId + quantity - 1]`, each `detected` with the
resolved author; the log-replay path instead persists one
`(MintEvent, Token)` pair per token id — `quantity` mint-event rows all
sharing the log's `(tx_hash, log_index)` — with the same token rows. -/
theorem C3_amended_persistence :
    (∀ (st : Store) (ev : DecodedEvent) (author : Author),
        (insertMintRecords st ev author).1.mint_events =
          st.mint_events ++
            [{ tx_hash := ev.tx_hash, log_index := ev.log_index,
               block_number := ev.block_number, token_id := ev.start_token_id,
               author_wallet := ev.prompt_author, recipient := ev.minter }] ∧
        (insertMintRecords st ev author).1.tokens =
          st.tokens ++ (List.range ev.quantity).map (fun i =>
            ({ token_id := ev.start_token_id + i, author_id := author.id,
               status := TokenStatus.detected } : Token)) ∧
        (insertMintRecords st ev author).2 =
          (List.range ev.quantity).map (fun i => ev.start_token_id + i)) ∧
    (∀ (ev : RecoveredEvent) (st : Store) (settings : Settings) (author : Author),
        getByWallet st ev.author = some author →
        (∀ i, i < ev.quantity → ∀ t ∈ st.tokens, t.token_id ≠ ev.start_token_id + i) →
        (store_recovered_events [ev] st settings).1 =
          { st with
            mint_events := st.mint_events ++ (List.range ev.quantity).map (fun i =>
              ({ tx_hash := ev.tx_hash, log_index := ev.log_index,
                 block_number := ev.block_number, token_id := ev.start_token_id + i,
                 author_wallet := ev.author, recipient := ev.minter } : MintEvent)),
            tokens := st.tokens ++ (List.range ev.quantity).map (fun i =>
              ({ token_id := ev.start_token_id + i, author_id := author.id,
                 status := TokenStatus.detected } : Token)) }) := by
  constructor
  · intro st ev author
    refine ⟨by simp [insertMintRecords], ?_, by simp [insertMintRecords]⟩
    simp [insertMintRecords, List.map_map, Function.comp]
  · intro ev st settings author hres habs
    unfold store_recovered_events
    rw [List.foldl_cons, List.foldl_nil]
    rw [hres]
    dsimp only
    have := replay_inner_fold ev author (List.range ev.quantity) st (0, 0)
      (fun i hi => habs i (List.mem_range.mp hi)) (List.nodup_range ev.quantity)
    exact this

/-- C3 witness: the replay conjunct evaluated on the concrete
`quantity = 2` fixture. -/
theorem C3_amended_persistence_witness :
    (store_recovered_events [cReplayEvent2] cStore0 cSettings).1 =
      { cStore0 with
        mint_events := cStore0.mint_events ++
          (List.range cReplayEvent2.quantity).map (fun i =>
            ({ tx_hash := cReplayEvent2.tx_hash,
               log_index := cReplayEvent2.log_index,
               block_number := cReplayEvent2.block_number,
               token_id := cReplayEvent2.start_token_id + i,
               author_wallet := cReplayEvent2.author,
               recipient := cReplayEvent2.minter } : MintEvent)),
        tokens := cStore0.tokens ++
          (List.range cReplayEvent2.quantity).map (fun i =>
            ({ token_id := cReplayEvent2.start_token_id + i,
               author_id := cAuthorRow.id,
               status := TokenStatus.detected } : Token)) } := by
  exact C3_amended_persistence.2 cReplayEvent2 cStore0 cSettings cAuthorRow
    (by decide) (by decide)

end Glisk
